import Mathlib

/-!
# Authorization and approval rule set of the society-management backend

Shallow embedding of the FastAPI backend's authorization/approval logic
(`app/core/deps.py`, `app/api/v1/endpoints/{societies,issues,assets,amcs}.py`,
rows as declared in `app/models.py`).

Modelling conventions:
* roles and approval statuses are the `String` literals the source compares
  against ("developer", "admin", "manager", "member", "pending", "approved",
  "rejected");
* UUID primary keys and timestamps are `Nat`;
* a table is a `List` of row structures; `scalar_one_or_none` on an
  exact-match query is `List.find?` (under the primary-key and
  `(user_id, society_id)` uniqueness constraints of `models.py` the first
  match is the unique match — well-formedness is `DB.wf` below);
* a handler that may raise `HTTPException` returns `Except ApiError _`;
  `ApiError.statusCode` recovers the HTTP code.

Bookkeeping columns never read by the rule set (`created_at` on rows other
than `Society`, `updated_at`, `is_primary`, `joined_at`, user profile fields)
are omitted.  `models.py` declares no `rejected_by` / `rejected_at` columns on
`UserSociety`, but the `join_society` and `approve_member` handlers assign
those attributes on row instances, so the row structure here carries them.
-/

namespace SocietyApp

/-- A row of `users` (`models.py`), restricted to the fields the rule set
reads: `id`, `global_role` and `is_active`. -/
structure User where
  id : Nat
  global_role : String
  is_active : Bool
  deriving DecidableEq

/-- A row of `societies` (`models.py`): identity, the search/order columns
used by `list_societies`, and the approval state machine columns. -/
structure Society where
  id : Nat
  name : String
  city : String
  approval_status : String
  approved_by : Option Nat
  approved_at : Option Nat
  created_at : Nat
  deriving DecidableEq

/-- A row of `user_societies` (`models.py`, lines 160-199) plus the
`rejected_by` / `rejected_at` instance attributes assigned by the
`societies.py` handlers. -/
structure UserSociety where
  id : Nat
  user_id : Nat
  society_id : Nat
  role : String
  approval_status : String
  approved_by : Option Nat
  approved_at : Option Nat
  rejected_by : Option Nat
  rejected_at : Option Nat
  rejection_reason : Option String
  flat_no : Option String
  wing : Option String
  deriving DecidableEq

/-- A row of `issues`, restricted to the fields `update_issue` /
`delete_issue` read or write. -/
structure Issue where
  id : Nat
  society_id : Nat
  reported_by : Nat
  assigned_to : Option Nat
  title : String
  status : String
  resolved_date : Option Nat
  deriving DecidableEq

/-- The database state the rule set touches. -/
structure DB where
  societies : List Society
  user_societies : List UserSociety
  issues : List Issue
  deriving DecidableEq

/-- The uniqueness constraints of `models.py` that make
`scalar_one_or_none` well defined: primary keys are distinct and
`(user_id, society_id)` pairs are unique (`uq_user_society`). -/
def DB.wf (db : DB) : Prop :=
  (db.societies.map (·.id)).Nodup ∧
  (db.user_societies.map (·.id)).Nodup ∧
  (db.user_societies.map (fun m => (m.user_id, m.society_id))).Nodup ∧
  (db.issues.map (·.id)).Nodup

instance (db : DB) : Decidable db.wf := by
  unfold DB.wf; infer_instance

/-- The `HTTPException`s raised by the rule set, tagged with the `detail`
string of the source (long messages abbreviated).  `attributeError` stands
for a Python `AttributeError` escaping a handler (an HTTP 500). -/
inductive ApiError where
  | notFound (detail : String)
  | forbidden (detail : String)
  | badRequest (detail : String)
  | attributeError (detail : String)
  deriving DecidableEq

instance {e a : Type} [DecidableEq e] [DecidableEq a] :
    DecidableEq (Except e a) := fun x y =>
  match x, y with
  | .ok v, .ok w =>
    if h : v = w then isTrue (by rw [h])
    else isFalse (by intro hc; cases hc; exact h rfl)
  | .error v, .error w =>
    if h : v = w then isTrue (by rw [h])
    else isFalse (by intro hc; cases hc; exact h rfl)
  | .ok _, .error _ => isFalse (by intro hc; cases hc)
  | .error _, .ok _ => isFalse (by intro hc; cases hc)

/-- HTTP status code of each failure. -/
def ApiError.statusCode : ApiError → Nat
  | .notFound _ => 404
  | .forbidden _ => 403
  | .badRequest _ => 400
  | .attributeError _ => 500

/-- `select(Society).where(Society.id == society_id)` + `scalar_one_or_none`. -/
def DB.findSociety (db : DB) (society_id : Nat) : Option Society :=
  db.societies.find? (fun s => s.id == society_id)

/-- `select(UserSociety).where(and_(user_id == uid, society_id == sid))`
+ `scalar_one_or_none`. -/
def DB.findMembershipPair (db : DB) (uid sid : Nat) : Option UserSociety :=
  db.user_societies.find? (fun m => m.user_id == uid && m.society_id == sid)

/-- `select(UserSociety).where(UserSociety.id == mid)` + `scalar_one_or_none`. -/
def DB.findMembershipById (db : DB) (mid : Nat) : Option UserSociety :=
  db.user_societies.find? (fun m => m.id == mid)

/-- `select(Issue).where(Issue.id == iid)` + `scalar_one_or_none`. -/
def DB.findIssue (db : DB) (iid : Nat) : Option Issue :=
  db.issues.find? (fun i => i.id == iid)

/-- `select(UserSociety).where(and_(user_id == uid, society_id == sid,
approval_status == "approved"))` + `scalar_one_or_none` — the query of
`get_user_society_role`. -/
def DB.findApprovedMembership (db : DB) (uid sid : Nat) : Option UserSociety :=
  db.user_societies.find? (fun m =>
    m.user_id == uid && m.society_id == sid &&
    m.approval_status == "approved")

/-- `detail` of the society-not-approved failure of `check_society_access`. -/
def societyNotApprovedMsg : String :=
  "Society is not approved yet. Only developers can access pending societies."

/-- `check_society_access` (`deps.py`, lines 139-208).  Developers pass
immediately; otherwise the society must exist and be approved, the caller
must have a membership row, the row must be approved, and (when a
`required_role` is passed) the row's role must match it. -/
def check_society_access (user : User) (society_id : Nat) (db : DB)
    (required_role : Option String) : Except ApiError Bool :=
  if user.global_role == "developer" then .ok true
  else
    match db.findSociety society_id with
    | none => .error (.notFound "Society not found")
    | some society =>
      if society.approval_status != "approved" then
        .error (.forbidden societyNotApprovedMsg)
      else
        match db.findMembershipPair user.id society_id with
        | none => .error (.forbidden "No access to this society")
        | some mapping =>
          if mapping.approval_status != "approved" then
            .error (.forbidden "Society membership not approved")
          else
            match required_role with
            | some r =>
              if mapping.role != r then
                .error (.forbidden ("Required role " ++ r ++ " within society"))
              else .ok true
            | none => .ok true

/-- `get_user_society_role` (`deps.py`, lines 211-243).  Developers resolve
to "admin" without consulting the table; otherwise the query filters on
`approval_status == "approved"` and the role of the row (if any) is
returned. -/
def get_user_society_role (user : User) (society_id : Nat) (db : DB) :
    Option String :=
  if user.global_role == "developer" then some "admin"
  else (db.findApprovedMembership user.id society_id).map (·.role)

/-- `require_society_permission` (`deps.py`, lines 246-281): basic access
check, then the resolved role must be in `allowed_roles`. -/
def require_society_permission (user : User) (society_id : Nat) (db : DB)
    (allowed_roles : List String) (action : String) :
    Except ApiError String :=
  match check_society_access user society_id db none with
  | .error e => .error e
  | .ok _ =>
    match get_user_society_role user society_id db with
    | none => .error (.forbidden ("Insufficient permissions to " ++ action))
    | some role =>
      if !(allowed_roles.contains role) then
        .error (.forbidden ("Insufficient permissions to " ++ action))
      else .ok role

/-! ## Society endpoints (`app/api/v1/endpoints/societies.py`) -/

/-- `SocietyCreate` request body (`schemas/society.py`), restricted to the
fields the embedded `Society` row keeps. -/
structure SocietyCreate where
  name : String
  city : String
  deriving DecidableEq

/-- `UserSocietyCreate` request body (`schemas/society.py`): desired role
(optional, schema default "member") and flat/wing. -/
structure UserSocietyCreate where
  role : Option String
  flat_no : Option String
  wing : Option String
  deriving DecidableEq

/-- `ApprovalRequest` body of `POST /societies/{id}/approve`. -/
structure ApprovalRequest where
  user_society_id : Nat
  approved : Bool
  rejection_reason : Option String
  deriving DecidableEq

/-- Case-insensitive containment of `pattern`'s characters in `field`,
modelling SQL `field ILIKE '%pattern%'`. -/
def containsSeq (needle : List Char) : List Char → Bool
  | [] => needle.isEmpty
  | c :: rest => needle.isPrefixOf (c :: rest) || containsSeq needle rest

/-- `Column.ilike(f"%{search}%")`: case-insensitive substring match. -/
def ilike (field pattern : String) : Bool :=
  containsSeq (pattern.data.map Char.toLower) (field.data.map Char.toLower)

/-- Insert into a list sorted by `created_at` descending. -/
def insertByCreatedDesc (s : Society) : List Society → List Society
  | [] => [s]
  | t :: ts =>
    if t.created_at ≤ s.created_at then s :: t :: ts
    else t :: insertByCreatedDesc s ts

/-- `order_by(Society.created_at.desc())` as an insertion sort. -/
def sortByCreatedDesc : List Society → List Society
  | [] => []
  | s :: ss => insertByCreatedDesc s (sortByCreatedDesc ss)

/-- `list_societies` (`societies.py`, lines 46-111).  Developers see every
society; anyone else sees only approved societies they hold an approved
membership in.  The optional search matches name or city, and the result is
ordered by `created_at` descending, then paginated with `skip`/`limit`. -/
def list_societies (skip limit : Nat) (search : Option String) (user : User)
    (db : DB) : List Society :=
  let base :=
    if user.global_role == "developer" then db.societies
    else
      db.societies.filter (fun s =>
        db.user_societies.any (fun m =>
          m.user_id == user.id && m.society_id == s.id &&
          m.approval_status == "approved") &&
        s.approval_status == "approved")
  let searched :=
    match search with
    | none => base
    | some q => base.filter (fun s => ilike s.name q || ilike s.city q)
  ((sortByCreatedDesc searched).drop skip).take limit

/-- `create_society` (`societies.py`, lines 121-185).  `fresh_society_id` and
`fresh_membership_id` stand for the generated UUIDs, `now` for
`datetime.utcnow()`.  The handler cannot fail. -/
def create_society (payload : SocietyCreate) (user : User)
    (fresh_society_id fresh_membership_id now : Nat) (db : DB) :
    Society × DB :=
  let is_developer := user.global_role == "developer"
  let new_society : Society :=
    { id := fresh_society_id
      name := payload.name
      city := payload.city
      approval_status := if is_developer then "approved" else "pending"
      approved_by := if is_developer then some user.id else none
      approved_at := if is_developer then some now else none
      created_at := now }
  let user_society : UserSociety :=
    { id := fresh_membership_id
      user_id := user.id
      society_id := new_society.id
      role := "admin"
      approval_status := "approved"
      approved_by := some user.id
      approved_at := some now
      rejected_by := none
      rejected_at := none
      rejection_reason := none
      flat_no := none
      wing := none }
  (new_society,
    { db with
      societies := db.societies ++ [new_society]
      user_societies := db.user_societies ++ [user_society] })

/-- `detail` strings of `join_society`'s failures. -/
def alreadyMemberMsg : String := "You are already a member of this society"

/-- `detail` of the duplicate pending-request failure of `join_society`. -/
def pendingRequestMsg : String :=
  "You already have a pending request for this society"

/-- `detail` of the pending-society failure of `join_society`. -/
def joinPendingSocietyMsg : String :=
  "Society is pending approval. Only developers can access pending societies."

/-- The tail of `join_society` (`societies.py`, lines 527-549): role
validation and insertion of a fresh pending row. -/
def join_society_insert (society_id : Nat)
    (join_request : Option UserSocietyCreate) (user : User) (fresh_id : Nat)
    (db : DB) : Except ApiError (UserSociety × DB) :=
  let requested_role : Option String :=
    match join_request with
    | some j => j.role
    | none => some "member"
  match requested_role with
  | some r =>
    if !(["admin", "manager", "member"].contains r) then
      .error (.badRequest "Invalid role. Must be admin, manager, or member")
    else
      let user_society : UserSociety :=
        { id := fresh_id
          user_id := user.id
          society_id := society_id
          role := r
          approval_status := "pending"
          approved_by := none
          approved_at := none
          rejected_by := none
          rejected_at := none
          rejection_reason := none
          flat_no := (join_request.map (·.flat_no)).join
          wing := (join_request.map (·.wing)).join }
      .ok (user_society,
        { db with user_societies := db.user_societies ++ [user_society] })
  | none =>
    .error (.badRequest "Invalid role. Must be admin, manager, or member")

/-- `join_society` (`societies.py`, lines 436-549).  `fresh_id` stands for
the UUID generated for a newly inserted row.  Returns the created or reset
membership row together with the new database state. -/
def join_society (society_id : Nat) (join_request : Option UserSocietyCreate)
    (user : User) (fresh_id : Nat) (db : DB) :
    Except ApiError (UserSociety × DB) :=
  match db.findSociety society_id with
  | none => .error (.notFound "Society not found")
  | some society =>
    if society.approval_status != "approved" &&
        user.global_role != "developer" then
      .error (.forbidden joinPendingSocietyMsg)
    else
      match db.findMembershipPair user.id society_id with
      | some existing =>
        if existing.approval_status == "approved" then
          .error (.badRequest alreadyMemberMsg)
        else if existing.approval_status == "pending" then
          .error (.badRequest pendingRequestMsg)
        else if existing.approval_status == "rejected" then
          let reset : UserSociety :=
            { existing with
              approval_status := "pending"
              rejected_at := none
              rejected_by := none }
          .ok (reset,
            { db with
              user_societies := db.user_societies.map (fun m =>
                if m.id == existing.id then reset else m) })
        else
          -- an existing row in any other state falls through to the insert
          join_society_insert society_id join_request user fresh_id db
      | none => join_society_insert society_id join_request user fresh_id db

/-- `get_society_members` (`societies.py`, lines 558-602): all membership
rows of the society, optionally filtered by approval status.  The handler
performs no society-existence, approval or membership check on the caller,
so it never fails. -/
def get_society_members (society_id : Nat) (status_filter : Option String)
    (user : User) (db : DB) : Except ApiError (List UserSociety) :=
  let base := db.user_societies.filter (fun m => m.society_id == society_id)
  .ok (match status_filter with
    | none => base
    | some f => base.filter (fun m => m.approval_status == f))

/-- The `can_approve` boolean of `approve_member` (`societies.py`, lines
668-680): developers approve anything; admin requests need a developer;
manager requests an admin; member requests an admin or manager. -/
def can_approve (user : User) (requested_role : String)
    (approver_role : Option String) : Bool :=
  if user.global_role == "developer" then true
  else if requested_role == "admin" then false
  else if requested_role == "manager" then approver_role == some "admin"
  else if requested_role == "member" then
    approver_role == some "admin" || approver_role == some "manager"
  else false

/-- `detail` of the authority failure of `approve_member` (abbreviated). -/
def approveForbiddenMsg : String :=
  "Insufficient permissions to approve this role"

/-- `approve_member` (`societies.py`, lines 611-711): the membership row is
fetched by `user_society_id` alone, the approver's role is resolved against
the path `society_id`, the authority table is applied, the row must be
pending, and the approve/reject fields are written.

Note: in the source the final commit statement (line 709) is the
syntactically invalid `await dbmembership.rejection_reason = ...`; this
definition embeds the decision logic and field updates of lines 645-707. -/
def approve_member (society_id : Nat) (approval : ApprovalRequest)
    (user : User) (now : Nat) (db : DB) :
    Except ApiError (UserSociety × DB) :=
  match db.findMembershipById approval.user_society_id with
  | none => .error (.notFound "Membership request not found")
  | some membership =>
    let requested_role := membership.role
    let approver_role := get_user_society_role user society_id db
    if !(can_approve user requested_role approver_role) then
      .error (.forbidden approveForbiddenMsg)
    else if membership.approval_status != "pending" then
      .error (.badRequest ("Membership is already " ++
        membership.approval_status))
    else
      let updated : UserSociety :=
        if approval.approved then
          { membership with
            approval_status := "approved"
            approved_by := some user.id
            approved_at := some now }
        else
          { membership with
            approval_status := "rejected"
            rejected_by := some user.id
            rejected_at := some now
            -- `if approval.rejection_reason:` — None and "" are falsy
            rejection_reason :=
              if approval.rejection_reason.getD "" != "" then
                approval.rejection_reason
              else membership.rejection_reason }
      .ok (updated,
        { db with
          user_societies := db.user_societies.map (fun m =>
            if m.id == membership.id then updated else m) })

/-! ## Issue endpoints (`app/api/v1/endpoints/issues.py`) -/

/-- `IssueUpdate` body, restricted to the fields the embedded `Issue` row
keeps; `none` models a field absent from the request
(`model_dump(exclude_unset=True)`). -/
structure IssueUpdate where
  title : Option String
  status : Option String
  assigned_to : Option Nat
  deriving DecidableEq

/-- `update_issue` (`issues.py`, lines 167-225): the reporter, the assignee,
or an admin/manager of the issue's society may update; everyone else gets a
403.  Setting status to "resolved" stamps `resolved_date`. -/
def update_issue (issue_id : Nat) (upd : IssueUpdate) (user : User)
    (now : Nat) (db : DB) : Except ApiError (Issue × DB) :=
  match db.findIssue issue_id with
  | none => .error (.notFound "Issue not found")
  | some issue =>
    let is_reporter := issue.reported_by == user.id
    let is_assignee := issue.assigned_to.isSome &&
      issue.assigned_to == some user.id
    let user_role := get_user_society_role user issue.society_id db
    let is_admin_or_manager :=
      user_role == some "admin" || user_role == some "manager"
    if !(is_reporter || is_assignee || is_admin_or_manager) then
      .error (.forbidden "You do not have permission to update this issue")
    else
      let resolved_date :=
        match upd.status with
        | some st =>
          if st == "resolved" && issue.status != "resolved" then some now
          else issue.resolved_date
        | none => issue.resolved_date
      let updated : Issue :=
        { issue with
          title := upd.title.getD issue.title
          status := upd.status.getD issue.status
          assigned_to :=
            match upd.assigned_to with
            | some a => some a
            | none => issue.assigned_to
          resolved_date := resolved_date }
      .ok (updated,
        { db with
          issues := db.issues.map (fun i =>
            if i.id == issue_id then updated else i) })

/-- `delete_issue` (`issues.py`, lines 228-267): only the reporter or an
admin of the issue's society may delete. -/
def delete_issue (issue_id : Nat) (user : User) (db : DB) :
    Except ApiError DB :=
  match db.findIssue issue_id with
  | none => .error (.notFound "Issue not found")
  | some issue =>
    let is_reporter := issue.reported_by == user.id
    let user_role := get_user_society_role user issue.society_id db
    let is_admin := user_role == some "admin"
    if !(is_reporter || is_admin) then
      .error (.forbidden "You do not have permission to delete this issue")
    else
      .ok { db with issues := db.issues.filter (fun i => !(i.id == issue_id)) }

/-! ## Asset and AMC permission gates

`create_asset` (`assets.py`, lines 158-177) and `update_asset` (`assets.py`,
lines 260-279) call `require_society_permission` with
`allowed_roles=["admin", "manager"]`.

`create_amc` (`amcs.py`, lines 86-111) and `update_amc` (`amcs.py`, lines
204-241) do not use the generic gate: for a non-developer they run their own
membership query

    select(UserSociety).where(and_(user_id == u, society_id == s,
        UserSociety.role == "admin", UserSociety.status == "approved"))

whose last conjunct reads `UserSociety.status` — an attribute `models.py`
does not declare (the column is `approval_status`).  Building that query
raises `AttributeError`, so every non-developer call fails; only developers
(who skip the query) pass the gate. -/

/-- Permission gate of `create_asset`. -/
def create_asset_gate (user : User) (society_id : Nat) (db : DB) :
    Except ApiError String :=
  require_society_permission user society_id db ["admin", "manager"]
    "create assets in this society"

/-- Permission gate of `update_asset`. -/
def update_asset_gate (user : User) (society_id : Nat) (db : DB) :
    Except ApiError String :=
  require_society_permission user society_id db ["admin", "manager"]
    "update assets in this society"

/-- Permission gate of `create_amc` / `update_amc`: a developer skips the
query; a non-developer's membership query evaluates the nonexistent
`UserSociety.status` attribute and raises. -/
def amc_admin_gate (user : User) (society_id : Nat) (db : DB) :
    Except ApiError Unit :=
  if user.global_role == "developer" then .ok ()
  else .error (.attributeError "type object UserSociety has no attribute status")

/-- Gate of `create_amc` (`amcs.py`, lines 95-111). -/
def create_amc_gate (user : User) (society_id : Nat) (db : DB) :
    Except ApiError Unit :=
  amc_admin_gate user society_id db

/-- Gate of `update_amc` (`amcs.py`, lines 225-240). -/
def update_amc_gate (user : User) (society_id : Nat) (db : DB) :
    Except ApiError Unit :=
  amc_admin_gate user society_id db

/-! ## Operation sequences over membership rows -/

/-- The two operations that touch `UserSociety.approval_status`. -/
inductive Op where
  | join (society_id : Nat) (req : Option UserSocietyCreate) (user : User)
      (fresh_id : Nat)
  | approveMember (society_id : Nat) (approval : ApprovalRequest)
      (user : User) (now : Nat)
  deriving DecidableEq

/-- Run one operation; a raised `HTTPException` leaves the state unchanged
(the transaction never commits). -/
def applyOp (db : DB) : Op → DB
  | .join sid req u fid =>
    match join_society sid req u fid db with
    | .ok (_, db') => db'
    | .error _ => db
  | .approveMember sid approval u now =>
    match approve_member sid approval u now db with
    | .ok (_, db') => db'
    | .error _ => db

/-- Freshness of the UUID generated for an inserted row: `uuid4` never
collides with an existing primary key. -/
def opFresh (db : DB) : Op → Prop
  | .join _ _ _ fid => ∀ m ∈ db.user_societies, m.id ≠ fid
  | .approveMember _ _ _ _ => True

instance (db : DB) (op : Op) : Decidable (opFresh db op) := by
  unfold opFresh; cases op <;> infer_instance

/-- Run a sequence of operations. -/
def applyOps (db : DB) (ops : List Op) : DB := ops.foldl applyOp db

/-- Freshness of every generated id along a run. -/
def opsFresh : DB → List Op → Prop
  | _, [] => True
  | db, op :: rest => opFresh db op ∧ opsFresh (applyOp db op) rest

def decOpsFresh : (db : DB) → (ops : List Op) → Decidable (opsFresh db ops)
  | _, [] => .isTrue trivial
  | db, op :: rest =>
    @instDecidableAnd _ _ inferInstance (decOpsFresh (applyOp db op) rest)

instance (db : DB) (ops : List Op) : Decidable (opsFresh db ops) :=
  decOpsFresh db ops

/-- Every membership row carries one of the three approval statuses — true
of every state the API can produce (rows are inserted "pending", reset to
"pending", or set to "approved"/"rejected"). -/
def statusValid (db : DB) : Prop :=
  ∀ m ∈ db.user_societies,
    m.approval_status = "pending" ∨ m.approval_status = "approved" ∨
    m.approval_status = "rejected"

instance (db : DB) : Decidable (statusValid db) := by
  unfold statusValid; infer_instance

/-! ## Concrete states used by witnesses and counterexamples -/

/-- A developer account. -/
def uDev : User := { id := 1, global_role := "developer", is_active := true }

/-- A plain user (global role "member"). -/
def uAlice : User := { id := 2, global_role := "member", is_active := true }

/-- A plain user who will act as a society manager. -/
def uMona : User := { id := 3, global_role := "member", is_active := true }

/-- An approved society. -/
def socA : Society :=
  { id := 10, name := "Green Park", city := "Pune",
    approval_status := "approved", approved_by := some 1,
    approved_at := some 0, created_at := 0 }

/-- A pending society. -/
def socP : Society :=
  { id := 11, name := "Blue Hills", city := "Pune",
    approval_status := "pending", approved_by := none,
    approved_at := none, created_at := 1 }

/-- Alice's approved "member" membership in the approved society. -/
def memAliceA : UserSociety :=
  { id := 100, user_id := 2, society_id := 10, role := "member",
    approval_status := "approved", approved_by := some 1,
    approved_at := some 0, rejected_by := none, rejected_at := none,
    rejection_reason := none, flat_no := none, wing := none }

/-- Mona's approved "manager" membership in the approved society. -/
def memMonaA : UserSociety :=
  { id := 101, user_id := 3, society_id := 10, role := "manager",
    approval_status := "approved", approved_by := some 1,
    approved_at := some 0, rejected_by := none, rejected_at := none,
    rejection_reason := none, flat_no := none, wing := none }

/-- Alice's membership row in the pending society (she created no row via
`join_society`, which refuses pending societies; the row stands for state
seeded directly, e.g. by a developer action). -/
def memAliceP : UserSociety :=
  { id := 102, user_id := 2, society_id := 11, role := "member",
    approval_status := "pending", approved_by := none,
    approved_at := none, rejected_by := none, rejected_at := none,
    rejection_reason := none, flat_no := none, wing := none }

/-- Example state: one approved and one pending society, Alice an approved
member and Mona an approved manager of the approved one, and a pending
membership row of Alice in the pending one. -/
def dbEx : DB :=
  { societies := [socA, socP]
    user_societies := [memAliceA, memMonaA, memAliceP]
    issues := [] }

/-- A user whose join request was rejected. -/
def uRita : User := { id := 4, global_role := "member", is_active := true }

/-- Rita's rejected membership row in the approved society. -/
def memRitaRej : UserSociety :=
  { id := 103, user_id := 4, society_id := 10, role := "member",
    approval_status := "rejected", approved_by := none, approved_at := none,
    rejected_by := some 1, rejected_at := some 3,
    rejection_reason := some "incomplete papers", flat_no := none,
    wing := none }

/-- Example state for the re-request scenario: the approved society and
Rita's rejected row. -/
def dbRej : DB :=
  { societies := [socA], user_societies := [memRitaRej], issues := [] }

/-- An issue reported by Alice in the approved society, unassigned. -/
def issEx : Issue :=
  { id := 500, society_id := 10, reported_by := 2, assigned_to := none,
    title := "Water leakage", status := "open", resolved_date := none }

/-- Example state with one issue. -/
def dbIss : DB :=
  { societies := [socA], user_societies := [memAliceA, memMonaA],
    issues := [issEx] }

/-- The empty initial state. -/
def db0 : DB := { societies := [], user_societies := [], issues := [] }

/-- Reaching the cross-society state: the developer creates two societies
"Alpha" (id 20) and "Beta" (id 21), both auto-approved. -/
def dbCross1 : DB := (create_society ⟨"Alpha", "Pune"⟩ uDev 20 300 0 db0).2

/-- ... second society. -/
def dbCross2 : DB := (create_society ⟨"Beta", "Pune"⟩ uDev 21 301 0 dbCross1).2

/-- ... Alice requests the "admin" role in Alpha, the developer approves it,
and Mona requests the "manager" role in Beta (left pending). -/
def dbCross : DB :=
  [Op.join 20 (some ⟨some "admin", none, none⟩) uAlice 302,
   Op.approveMember 20 ⟨302, true, none⟩ uDev 1,
   Op.join 21 (some ⟨some "manager", none, none⟩) uMona 303].foldl
    applyOp dbCross2

/-! ## Query characterization lemmas

`scalar_one_or_none` on an exact-match query is `List.find?`; under the
uniqueness constraints of `DB.wf` the first match is the unique match. -/

theorem find?_eq_some_of_mem_unique {α : Type} {p : α → Bool} {l : List α}
    {a : α} (ha : a ∈ l) (hpa : p a = true)
    (huniq : ∀ x ∈ l, p x = true → x = a) : l.find? p = some a := by
  induction l with
  | nil => cases ha
  | cons b t ih =>
    rcases List.mem_cons.mp ha with rfl | hat
    · simp [List.find?_cons, hpa]
    · cases hpb : p b with
      | true =>
        have hba : b = a := huniq b (List.mem_cons_self b t) hpb
        subst hba
        simp [List.find?_cons, hpb]
      | false =>
        simp only [List.find?_cons, hpb]
        exact ih hat (fun x hx hpx => huniq x (List.mem_cons_of_mem _ hx) hpx)

theorem eq_of_mem_map_nodup {α β : Type} (key : α → β) {l : List α}
    (h : (l.map key).Nodup) {x y : α} (hx : x ∈ l) (hy : y ∈ l)
    (hk : key x = key y) : x = y :=
  List.inj_on_of_nodup_map h hx hy hk

theorem findSociety_some_iff {db : DB}
    (hnd : (db.societies.map (·.id)).Nodup) {sid : Nat} {s : Society} :
    db.findSociety sid = some s ↔ s ∈ db.societies ∧ s.id = sid := by
  constructor
  · intro h
    have hmem := List.mem_of_find?_eq_some h
    have hp := List.find?_some h
    simp only [beq_iff_eq] at hp
    exact ⟨hmem, hp⟩
  · rintro ⟨hmem, hid⟩
    refine find?_eq_some_of_mem_unique hmem (by simp [hid]) ?_
    intro x hx hpx
    simp only [beq_iff_eq] at hpx
    exact eq_of_mem_map_nodup (·.id) hnd hx hmem (by simp only [hpx, hid])

theorem findSociety_none_iff {db : DB} {sid : Nat} :
    db.findSociety sid = none ↔ ∀ s ∈ db.societies, s.id ≠ sid := by
  simp [DB.findSociety, List.find?_eq_none]

theorem findMembershipPair_some_iff {db : DB}
    (hnd : (db.user_societies.map (fun m => (m.user_id, m.society_id))).Nodup)
    {uid sid : Nat} {m : UserSociety} :
    db.findMembershipPair uid sid = some m ↔
      m ∈ db.user_societies ∧ m.user_id = uid ∧ m.society_id = sid := by
  constructor
  · intro h
    have hmem := List.mem_of_find?_eq_some h
    have hp := List.find?_some h
    simp only [Bool.and_eq_true, beq_iff_eq] at hp
    exact ⟨hmem, hp.1, hp.2⟩
  · rintro ⟨hmem, hu, hs⟩
    refine find?_eq_some_of_mem_unique hmem (by simp [hu, hs]) ?_
    intro x hx hpx
    simp only [Bool.and_eq_true, beq_iff_eq] at hpx
    exact eq_of_mem_map_nodup (fun m => (m.user_id, m.society_id)) hnd hx hmem
      (by simp only [hpx.1, hpx.2, hu, hs])

theorem findMembershipPair_none_iff {db : DB} {uid sid : Nat} :
    db.findMembershipPair uid sid = none ↔
      ∀ m ∈ db.user_societies, ¬(m.user_id = uid ∧ m.society_id = sid) := by
  simp [DB.findMembershipPair, List.find?_eq_none]

theorem findMembershipById_some_iff {db : DB}
    (hnd : (db.user_societies.map (·.id)).Nodup) {mid : Nat}
    {m : UserSociety} :
    db.findMembershipById mid = some m ↔
      m ∈ db.user_societies ∧ m.id = mid := by
  constructor
  · intro h
    have hmem := List.mem_of_find?_eq_some h
    have hp := List.find?_some h
    simp only [beq_iff_eq] at hp
    exact ⟨hmem, hp⟩
  · rintro ⟨hmem, hid⟩
    refine find?_eq_some_of_mem_unique hmem (by simp [hid]) ?_
    intro x hx hpx
    simp only [beq_iff_eq] at hpx
    exact eq_of_mem_map_nodup (·.id) hnd hx hmem (by simp only [hpx, hid])

theorem findIssue_some_iff {db : DB}
    (hnd : (db.issues.map (·.id)).Nodup) {iid : Nat} {i : Issue} :
    db.findIssue iid = some i ↔ i ∈ db.issues ∧ i.id = iid := by
  constructor
  · intro h
    have hmem := List.mem_of_find?_eq_some h
    have hp := List.find?_some h
    simp only [beq_iff_eq] at hp
    exact ⟨hmem, hp⟩
  · rintro ⟨hmem, hid⟩
    refine find?_eq_some_of_mem_unique hmem (by simp [hid]) ?_
    intro x hx hpx
    simp only [beq_iff_eq] at hpx
    exact eq_of_mem_map_nodup (·.id) hnd hx hmem (by simp only [hpx, hid])

theorem findApprovedMembership_some_iff {db : DB}
    (hnd : (db.user_societies.map (fun m => (m.user_id, m.society_id))).Nodup)
    {uid sid : Nat} {m : UserSociety} :
    db.findApprovedMembership uid sid = some m ↔
      m ∈ db.user_societies ∧ m.user_id = uid ∧ m.society_id = sid ∧
        m.approval_status = "approved" := by
  constructor
  · intro h
    have hmem := List.mem_of_find?_eq_some h
    have hp := List.find?_some h
    simp only [Bool.and_eq_true, beq_iff_eq] at hp
    exact ⟨hmem, hp.1.1, hp.1.2, hp.2⟩
  · rintro ⟨hmem, hu, hs, hap⟩
    refine find?_eq_some_of_mem_unique hmem (by simp [hu, hs, hap]) ?_
    intro x hx hpx
    simp only [Bool.and_eq_true, beq_iff_eq] at hpx
    exact eq_of_mem_map_nodup (fun m => (m.user_id, m.society_id)) hnd hx hmem
      (by simp only [hpx.1.1, hpx.1.2, hu, hs])

theorem findApprovedMembership_none_iff {db : DB} {uid sid : Nat} :
    db.findApprovedMembership uid sid = none ↔
      ∀ m ∈ db.user_societies,
        ¬(m.user_id = uid ∧ m.society_id = sid ∧
          m.approval_status = "approved") := by
  simp [DB.findApprovedMembership, List.find?_eq_none]

/-! ## Behaviour of `check_society_access` -/

theorem check_access_dev {u : User} {sid : Nat} {db : DB}
    (hdev : u.global_role = "developer") (required_role : Option String) :
    check_society_access u sid db required_role = .ok true := by
  simp [check_society_access, hdev]

theorem check_access_not_found {u : User} {sid : Nat} {db : DB}
    (hdev : u.global_role ≠ "developer")
    (hnone : db.findSociety sid = none) :
    check_society_access u sid db none =
      .error (.notFound "Society not found") := by
  simp [check_society_access, hdev, hnone]

theorem check_access_society_not_approved {u : User} {sid : Nat} {db : DB}
    {s : Society} (hdev : u.global_role ≠ "developer")
    (hs : db.findSociety sid = some s)
    (hap : s.approval_status ≠ "approved") :
    check_society_access u sid db none =
      .error (.forbidden societyNotApprovedMsg) := by
  simp [check_society_access, hdev, hs, hap]

theorem check_access_no_mapping {u : User} {sid : Nat} {db : DB}
    {s : Society} (hdev : u.global_role ≠ "developer")
    (hs : db.findSociety sid = some s)
    (hap : s.approval_status = "approved")
    (hm : db.findMembershipPair u.id sid = none) :
    check_society_access u sid db none =
      .error (.forbidden "No access to this society") := by
  simp [check_society_access, hdev, hs, hap, hm]

theorem check_access_mapping_not_approved {u : User} {sid : Nat} {db : DB}
    {s : Society} {m : UserSociety} (hdev : u.global_role ≠ "developer")
    (hs : db.findSociety sid = some s)
    (hap : s.approval_status = "approved")
    (hm : db.findMembershipPair u.id sid = some m)
    (hmap : m.approval_status ≠ "approved") :
    check_society_access u sid db none =
      .error (.forbidden "Society membership not approved") := by
  simp [check_society_access, hdev, hs, hap, hm, hmap]

theorem check_access_ok {u : User} {sid : Nat} {db : DB}
    {s : Society} {m : UserSociety} (hdev : u.global_role ≠ "developer")
    (hs : db.findSociety sid = some s)
    (hap : s.approval_status = "approved")
    (hm : db.findMembershipPair u.id sid = some m)
    (hmap : m.approval_status = "approved") :
    check_society_access u sid db none = .ok true := by
  simp [check_society_access, hdev, hs, hap, hm, hmap]

theorem check_access_ok_iff {u : User} {sid : Nat} {db : DB} (hwf : db.wf) :
    check_society_access u sid db none = .ok true ↔
      (u.global_role = "developer" ∨
        ((∃ s ∈ db.societies, s.id = sid ∧ s.approval_status = "approved") ∧
         (∃ m ∈ db.user_societies, m.user_id = u.id ∧ m.society_id = sid ∧
            m.approval_status = "approved"))) := by
  obtain ⟨hnds, hndm, hndp, hndi⟩ := hwf
  by_cases hdev : u.global_role = "developer"
  · simp [check_access_dev hdev, hdev]
  · constructor
    · intro h
      cases hs : db.findSociety sid with
      | none => rw [check_access_not_found hdev hs] at h; cases h
      | some s =>
        by_cases hap : s.approval_status = "approved"
        · cases hm : db.findMembershipPair u.id sid with
          | none => rw [check_access_no_mapping hdev hs hap hm] at h; cases h
          | some m =>
            by_cases hmap : m.approval_status = "approved"
            · obtain ⟨hsmem, hsid⟩ := (findSociety_some_iff hnds).mp hs
              obtain ⟨hmmem, hmu, hms⟩ :=
                (findMembershipPair_some_iff hndp).mp hm
              exact Or.inr ⟨⟨s, hsmem, hsid, hap⟩, ⟨m, hmmem, hmu, hms, hmap⟩⟩
            · rw [check_access_mapping_not_approved hdev hs hap hm hmap] at h
              cases h
        · rw [check_access_society_not_approved hdev hs hap] at h; cases h
    · rintro (hd | ⟨⟨s, hsmem, hsid, hsap⟩, ⟨m, hmmem, hmu, hms, hmap⟩⟩)
      · exact check_access_dev hd none
      · exact check_access_ok hdev
          ((findSociety_some_iff hnds).mpr ⟨hsmem, hsid⟩) hsap
          ((findMembershipPair_some_iff hndp).mpr ⟨hmmem, hmu, hms⟩) hmap

/-- C1: for every user and society, `check_society_access` (at its default
`required_role=None`) returns true iff the caller is a developer, or the
society exists with `approval_status="approved"` and an approved
`UserSociety` row exists for the pair; a developer always passes; otherwise
it fails with 404 `NotFound` when the society does not exist, 403
`NotApproved` when the society is not approved, 403 `NoAccess` when the
caller has no membership row, and 403 `NotApproved` (membership variant)
when the row exists but is not approved. -/
theorem check_society_access_spec (u : User) (sid : Nat) (db : DB)
    (hwf : db.wf) :
    (check_society_access u sid db none = .ok true ↔
      (u.global_role = "developer" ∨
        ((∃ s ∈ db.societies, s.id = sid ∧ s.approval_status = "approved") ∧
         (∃ m ∈ db.user_societies, m.user_id = u.id ∧ m.society_id = sid ∧
            m.approval_status = "approved")))) ∧
    (u.global_role = "developer" →
      check_society_access u sid db none = .ok true) ∧
    (u.global_role ≠ "developer" → (∀ s ∈ db.societies, s.id ≠ sid) →
      check_society_access u sid db none =
        .error (.notFound "Society not found")) ∧
    (u.global_role ≠ "developer" →
      ∀ s ∈ db.societies, s.id = sid → s.approval_status ≠ "approved" →
        check_society_access u sid db none =
          .error (.forbidden societyNotApprovedMsg)) ∧
    (u.global_role ≠ "developer" →
      (∃ s ∈ db.societies, s.id = sid ∧ s.approval_status = "approved") →
      (∀ m ∈ db.user_societies,
        ¬(m.user_id = u.id ∧ m.society_id = sid)) →
      check_society_access u sid db none =
        .error (.forbidden "No access to this society")) ∧
    (u.global_role ≠ "developer" →
      (∃ s ∈ db.societies, s.id = sid ∧ s.approval_status = "approved") →
      ∀ m ∈ db.user_societies, m.user_id = u.id → m.society_id = sid →
        m.approval_status ≠ "approved" →
        check_society_access u sid db none =
          .error (.forbidden "Society membership not approved")) := by
  obtain ⟨hnds, hndm, hndp, hndi⟩ := hwf
  refine ⟨check_access_ok_iff ⟨hnds, hndm, hndp, hndi⟩, ?_, ?_, ?_, ?_, ?_⟩
  · intro hdev; exact check_access_dev hdev none
  · intro hdev hall
    exact check_access_not_found hdev (findSociety_none_iff.mpr hall)
  · intro hdev s hsmem hsid hap
    exact check_access_society_not_approved hdev
      ((findSociety_some_iff hnds).mpr ⟨hsmem, hsid⟩) hap
  · rintro hdev ⟨s, hsmem, hsid, hsap⟩ hnone
    exact check_access_no_mapping hdev
      ((findSociety_some_iff hnds).mpr ⟨hsmem, hsid⟩) hsap
      (findMembershipPair_none_iff.mpr hnone)
  · rintro hdev ⟨s, hsmem, hsid, hsap⟩ m hmmem hmu hms hmap
    exact check_access_mapping_not_approved hdev
      ((findSociety_some_iff hnds).mpr ⟨hsmem, hsid⟩) hsap
      ((findMembershipPair_some_iff hndp).mpr ⟨hmmem, hmu, hms⟩) hmap

/-- Witness for C1: the example state is well formed and the claim's iff,
instantiated there, grants Alice access to the approved society she is an
approved member of. -/
theorem check_society_access_spec_witness :
    dbEx.wf ∧ check_society_access uAlice 10 dbEx none = .ok true :=
  ⟨by decide,
   (check_society_access_spec uAlice 10 dbEx (by decide)).1.mpr
     (Or.inr ⟨⟨socA, by decide, by decide, by decide⟩,
              ⟨memAliceA, by decide, by decide, by decide, by decide⟩⟩)⟩

/-! ## The approval authority table of `approve_member` -/

theorem can_approve_dev {u : User} (hdev : u.global_role = "developer")
    (requested : String) (r : Option String) :
    can_approve u requested r = true := by
  simp [can_approve, hdev]

theorem can_approve_nondev {u : User} (hdev : u.global_role ≠ "developer")
    (requested : String) (r : Option String) :
    can_approve u requested r =
      (requested == "manager" && r == some "admin" ||
       requested == "member" && (r == some "admin" || r == some "manager")) := by
  have h : (u.global_role == "developer") = false := by simp [hdev]
  unfold can_approve
  rw [h]
  by_cases h1 : requested = "admin" <;> by_cases h2 : requested = "manager" <;>
    by_cases h3 : requested = "member" <;> simp_all

theorem approve_member_forbidden {db : DB} {sid : Nat}
    {approval : ApprovalRequest} {u : User} {now : Nat} {m : UserSociety}
    (hfind : db.findMembershipById approval.user_society_id = some m)
    (hcan : can_approve u m.role (get_user_society_role u sid db) = false) :
    approve_member sid approval u now db =
      .error (.forbidden approveForbiddenMsg) := by
  simp [approve_member, hfind, hcan]

theorem approve_member_not_forbidden {db : DB} {sid : Nat}
    {approval : ApprovalRequest} {u : User} {now : Nat} {m : UserSociety}
    (hfind : db.findMembershipById approval.user_society_id = some m)
    (hcan : can_approve u m.role (get_user_society_role u sid db) = true) :
    ∀ e, approve_member sid approval u now db ≠ .error (.forbidden e) := by
  intro e
  by_cases hp : m.approval_status = "pending" <;>
    simp [approve_member, hfind, hcan, hp]

/-- C2: the approval authority table of `approve_member`.  For a membership
request `m` (fetched by id), with `r` the approver's resolved society role:
a developer may approve any requested role; a non-developer admin exactly
the "manager" and "member" requests (never "admin"); a manager exactly the
"member" requests; a member, or a caller with no approved membership,
nothing.  Whenever the table denies, `approve_member` fails with a 403
Forbidden; whenever it grants, `approve_member` never returns a 403. -/
theorem approve_member_authority_spec (sid : Nat)
    (approval : ApprovalRequest) (u : User) (now : Nat) (db : DB)
    (hwf : db.wf) :
    ∀ m ∈ db.user_societies, m.id = approval.user_society_id →
      ((u.global_role = "developer" →
         can_approve u m.role (get_user_society_role u sid db) = true) ∧
       (u.global_role ≠ "developer" →
         get_user_society_role u sid db = some "admin" →
         can_approve u m.role (get_user_society_role u sid db) =
           (m.role == "manager" || m.role == "member")) ∧
       (u.global_role ≠ "developer" →
         get_user_society_role u sid db = some "manager" →
         can_approve u m.role (get_user_society_role u sid db) =
           (m.role == "member")) ∧
       (u.global_role ≠ "developer" →
         (get_user_society_role u sid db = some "member" ∨
          get_user_society_role u sid db = none) →
         can_approve u m.role (get_user_society_role u sid db) = false)) ∧
      (can_approve u m.role (get_user_society_role u sid db) = false →
        approve_member sid approval u now db =
          .error (.forbidden approveForbiddenMsg)) ∧
      (can_approve u m.role (get_user_society_role u sid db) = true →
        ∀ e, approve_member sid approval u now db ≠
          .error (.forbidden e)) := by
  obtain ⟨hnds, hndm, hndp, hndi⟩ := hwf
  intro m hmem hid
  have hfind : db.findMembershipById approval.user_society_id = some m :=
    (findMembershipById_some_iff hndm).mpr ⟨hmem, hid⟩
  refine ⟨⟨?_, ?_, ?_, ?_⟩, ?_, ?_⟩
  · intro hdev; exact can_approve_dev hdev _ _
  · intro hdev hr; rw [can_approve_nondev hdev, hr]; simp
  · intro hdev hr; rw [can_approve_nondev hdev, hr]; simp
  · rintro hdev (hr | hr) <;> rw [can_approve_nondev hdev, hr] <;> simp
  · intro hcan; exact approve_member_forbidden hfind hcan
  · intro hcan e; exact approve_member_not_forbidden hfind hcan e

/-- Witness for C2: in the example state, Alice — a plain member of the
approved society — is denied when she tries to approve Mona's manager
request: the table instance evaluates to `false` and the call returns the
403. -/
theorem approve_member_authority_spec_witness :
    dbEx.wf ∧ memMonaA ∈ dbEx.user_societies ∧
    approve_member 10 ⟨101, true, none⟩ uAlice 5 dbEx =
      .error (.forbidden approveForbiddenMsg) := by
  refine ⟨by decide, by decide, ?_⟩
  exact ((approve_member_authority_spec 10 ⟨101, true, none⟩ uAlice 5 dbEx
    (by decide)) memMonaA (by decide) (by decide)).2.1 (by decide)

/-- C3 (intent of lines 690-707 of `societies.py`): on a pending membership
an authorized approve sets `approval_status="approved"` and records
`approved_by`/`approved_at`; a reject sets `approval_status="rejected"` and
records `rejected_by`/`rejected_at` and the given `rejection_reason`; on a
non-pending membership both fail with the 400 `InvalidState` error and the
state is unchanged.  (In the source these updates are unreachable: line 709,
where the commit belongs, is not valid Python — see the vacated
`await dbmembership.rejection_reason = ...` statement.) -/
theorem approve_member_field_updates_demo :
    (approve_member 11 ⟨102, true, none⟩ uDev 7 dbEx =
      .ok ({ memAliceP with
             approval_status := "approved"
             approved_by := some 1
             approved_at := some 7 },
        { dbEx with user_societies := [memAliceA, memMonaA,
          { memAliceP with
            approval_status := "approved"
            approved_by := some 1
            approved_at := some 7 }] })) ∧
    (approve_member 11 ⟨102, false, some "incomplete papers"⟩ uDev 7 dbEx =
      .ok ({ memAliceP with
             approval_status := "rejected"
             rejected_by := some 1
             rejected_at := some 7
             rejection_reason := some "incomplete papers" },
        { dbEx with user_societies := [memAliceA, memMonaA,
          { memAliceP with
            approval_status := "rejected"
            rejected_by := some 1
            rejected_at := some 7
            rejection_reason := some "incomplete papers" }] })) ∧
    (approve_member 10 ⟨100, true, none⟩ uDev 7 dbEx =
      .error (.badRequest "Membership is already approved")) ∧
    (approve_member 10 ⟨100, false, some "r"⟩ uDev 7 dbEx =
      .error (.badRequest "Membership is already approved")) := by
  refine ⟨by decide, by decide, by decide, by decide⟩

/-- C10: `approve_member` fetches the target membership by `user_society_id`
alone and never compares its `society_id` with the path society, while the
approver's role is resolved against the path society.  In the reachable
state `dbCross` (built above by `create_society`, `join_society` and
`approve_member` steps from the empty state), Alice — not a developer, an
approved admin of society 20 ("Alpha"), with no membership row at all in
society 21 ("Beta") — successfully approves the pending "manager"
membership 303 that belongs to society 21, by calling approve on society 20
with 21's membership id. -/
theorem approve_member_cross_society_reachable :
    uAlice.global_role = "member" ∧
    dbCross.user_societies.any (fun m => m.user_id == uAlice.id &&
      m.society_id == 20 && m.role == "admin" &&
      m.approval_status == "approved") = true ∧
    dbCross.user_societies.all (fun m => !(m.user_id == uAlice.id) ||
      !(m.society_id == 21)) = true ∧
    dbCross.user_societies.any (fun m => m.id == 303 &&
      m.society_id == 21 && m.role == "manager" &&
      m.approval_status == "pending") = true ∧
    (approve_member 20 ⟨303, true, none⟩ uAlice 9 dbCross).toOption.map
      (fun p => (p.1.id, p.1.society_id, p.1.approval_status)) =
      some (303, 21, "approved") := by
  decide

/-! ## `create_society` -/

/-- C8: a society created by a developer is approved immediately, with
`approved_by`/`approved_at` recorded; one created by anyone else starts
pending with those fields empty; and in every case the creator is inserted
as an approved "admin" membership row of the new society. -/
theorem create_society_spec (payload : SocietyCreate) (u : User)
    (fresh_society_id fresh_membership_id now : Nat) (db : DB) :
    (u.global_role = "developer" →
      (create_society payload u fresh_society_id fresh_membership_id now
        db).1.approval_status = "approved" ∧
      (create_society payload u fresh_society_id fresh_membership_id now
        db).1.approved_by = some u.id ∧
      (create_society payload u fresh_society_id fresh_membership_id now
        db).1.approved_at = some now) ∧
    (u.global_role ≠ "developer" →
      (create_society payload u fresh_society_id fresh_membership_id now
        db).1.approval_status = "pending" ∧
      (create_society payload u fresh_society_id fresh_membership_id now
        db).1.approved_by = none ∧
      (create_society payload u fresh_society_id fresh_membership_id now
        db).1.approved_at = none) ∧
    (create_society payload u fresh_society_id fresh_membership_id now
        db).2.user_societies =
      db.user_societies ++
        [{ id := fresh_membership_id
           user_id := u.id
           society_id := fresh_society_id
           role := "admin"
           approval_status := "approved"
           approved_by := some u.id
           approved_at := some now
           rejected_by := none
           rejected_at := none
           rejection_reason := none
           flat_no := none
           wing := none }] := by
  by_cases hdev : u.global_role = "developer" <;>
    simp [create_society, hdev]

/-- Witness for C8: the developer-created society "Alpha" is approved at
creation. -/
theorem create_society_spec_witness :
    uDev.global_role = "developer" ∧
    (create_society ⟨"Alpha", "Pune"⟩ uDev 20 300 0 db0).1.approval_status =
      "approved" :=
  ⟨rfl, ((create_society_spec ⟨"Alpha", "Pune"⟩ uDev 20 300 0 db0).1 rfl).1⟩

/-! ## `join_society` conflicts and re-requests -/

/-- C7: joining an approved society when a membership row for the pair
already exists: an approved row gives the 400 Conflict, a pending row gives
the 400 Conflict, and a rejected row is reset in place to "pending" with
`rejected_at`/`rejected_by` cleared — the very same row id, with the table's
id multiset unchanged (no new row created). -/
theorem join_society_conflict_rerequest_spec (sid : Nat)
    (req : Option UserSocietyCreate) (u : User) (fid : Nat) (db : DB)
    (hwf : db.wf)
    (hs : ∃ s ∈ db.societies, s.id = sid ∧ s.approval_status = "approved") :
    ∀ m ∈ db.user_societies, m.user_id = u.id → m.society_id = sid →
      ((m.approval_status = "approved" →
         join_society sid req u fid db =
           .error (.badRequest alreadyMemberMsg)) ∧
       (m.approval_status = "pending" →
         join_society sid req u fid db =
           .error (.badRequest pendingRequestMsg)) ∧
       (m.approval_status = "rejected" →
         ∃ m2 db2, join_society sid req u fid db = .ok (m2, db2) ∧
           m2 = { m with
                  approval_status := "pending"
                  rejected_at := none
                  rejected_by := none } ∧
           m2 ∈ db2.user_societies ∧
           db2.user_societies.map (·.id) = db.user_societies.map (·.id) ∧
           db2.user_societies.length = db.user_societies.length)) := by
  obtain ⟨hnds, hndm, hndp, hndi⟩ := hwf
  obtain ⟨s, hsmem, hsid, hsap⟩ := hs
  have hfs : db.findSociety sid = some s :=
    (findSociety_some_iff hnds).mpr ⟨hsmem, hsid⟩
  intro m hmem hmu hms
  have hfm : db.findMembershipPair u.id sid = some m :=
    (findMembershipPair_some_iff hndp).mpr ⟨hmem, hmu, hms⟩
  refine ⟨?_, ?_, ?_⟩
  · intro hap; simp [join_society, hfs, hfm, hsap, hap]
  · intro hap; simp [join_society, hfs, hfm, hsap, hap]
  · intro hap
    refine ⟨{ m with
              approval_status := "pending"
              rejected_at := none
              rejected_by := none },
            { db with user_societies := db.user_societies.map (fun x =>
                if x.id == m.id then
                  { m with
                    approval_status := "pending"
                    rejected_at := none
                    rejected_by := none }
                else x) },
            ?_, rfl, ?_, ?_, ?_⟩
    · simp [join_society, hfs, hfm, hsap, hap]
    · exact List.mem_map.mpr ⟨m, hmem, by simp⟩
    · rw [List.map_map]
      refine List.map_congr_left ?_
      intro x hx
      by_cases hxid : x.id = m.id <;> simp [hxid]
    · simp

/-- Witness for C7: Alice, already an approved member of the approved
society, is refused with the Conflict error when she joins again. -/
theorem join_society_conflict_rerequest_spec_witness :
    dbEx.wf ∧ socA ∈ dbEx.societies ∧ socA.approval_status = "approved" ∧
    memAliceA ∈ dbEx.user_societies ∧
    memAliceA.approval_status = "approved" ∧
    join_society 10 none uAlice 999 dbEx =
      .error (.badRequest alreadyMemberMsg) := by
  refine ⟨by decide, by decide, rfl, by decide, rfl, ?_⟩
  exact ((join_society_conflict_rerequest_spec 10 none uAlice 999 dbEx
    (by decide) ⟨socA, by decide, rfl, rfl⟩) memAliceA (by decide) rfl
    rfl).1 rfl

/-! ## The membership status state machine -/

theorem eq_of_mem_nodup_ids {us : List UserSociety}
    (hnd : (us.map (·.id)).Nodup) {r r2 : UserSociety} (hr : r ∈ us)
    (hr2 : r2 ∈ us) (hid : r2.id = r.id) : r2 = r :=
  eq_of_mem_map_nodup (·.id) hnd hr2 hr hid

theorem mem_replace_cases {us : List UserSociety} (m m2 : UserSociety)
    (hnd : (us.map (·.id)).Nodup) (hm : m ∈ us) (hid2 : m2.id = m.id)
    {r r2 : UserSociety} (hr : r ∈ us)
    (hr2 : r2 ∈ us.map (fun x => if x.id == m.id then m2 else x))
    (hrid : r2.id = r.id) :
    r2 = r ∨ (r = m ∧ r2 = m2) := by
  obtain ⟨x, hx, hfx⟩ := List.mem_map.mp hr2
  by_cases hxid : x.id = m.id
  · have hx2 : r2 = m2 := by rw [← hfx]; simp [hxid]
    have hrm : r = m := by
      refine eq_of_mem_map_nodup (·.id) hnd hr hm ?_
      show r.id = m.id
      rw [← hrid, hx2, hid2]
    exact Or.inr ⟨hrm, hx2⟩
  · have hx2 : r2 = x := by rw [← hfx]; simp [hxid]
    subst hx2
    exact Or.inl (eq_of_mem_nodup_ids hnd hr hx hrid)

theorem join_society_insert_shape (sid : Nat)
    (req : Option UserSocietyCreate) (u : User) (fid : Nat) (db : DB) :
    (∃ e, join_society_insert sid req u fid db = .error e) ∨
    (∃ w, w.id = fid ∧ w.approval_status = "pending" ∧
      w.user_id = u.id ∧ w.society_id = sid ∧
      join_society_insert sid req u fid db =
        .ok (w, { db with user_societies := db.user_societies ++ [w] })) := by
  cases hreq : req with
  | none =>
    exact Or.inr ⟨{ id := fid
                    user_id := u.id
                    society_id := sid
                    role := "member"
                    approval_status := "pending"
                    approved_by := none
                    approved_at := none
                    rejected_by := none
                    rejected_at := none
                    rejection_reason := none
                    flat_no := none
                    wing := none },
      rfl, rfl, rfl, rfl, by simp [join_society_insert]⟩
  | some j =>
    cases hrole : j.role with
    | none =>
      refine Or.inl ⟨.badRequest "Invalid role. Must be admin, manager, or member", ?_⟩
      simp [join_society_insert, hrole]
    | some r =>
      by_cases hc : r = "admin" ∨ r = "manager" ∨ r = "member"
      · refine Or.inr ⟨{ id := fid
                         user_id := u.id
                         society_id := sid
                         role := r
                         approval_status := "pending"
                         approved_by := none
                         approved_at := none
                         rejected_by := none
                         rejected_at := none
                         rejection_reason := none
                         flat_no := j.flat_no
                         wing := j.wing },
          rfl, rfl, rfl, rfl, ?_⟩
        have hcb : (["admin", "manager", "member"].contains r) = true := by
          simp [List.contains]
          tauto
        simp [join_society_insert, hrole, hcb]
        tauto
      · push_neg at hc
        obtain ⟨h1, h2, h3⟩ := hc
        refine Or.inl ⟨.badRequest "Invalid role. Must be admin, manager, or member", ?_⟩
        have hcb : (["admin", "manager", "member"].contains r) = false := by
          simp [List.contains, h1, h2, h3]
        simp [join_society_insert, hrole, hcb]
        exact ⟨h1, h2, h3⟩

theorem join_society_shape (sid : Nat) (req : Option UserSocietyCreate)
    (u : User) (fid : Nat) (db : DB) :
    (∃ e, join_society sid req u fid db = .error e) ∨
    (∃ m, m ∈ db.user_societies ∧ m.approval_status = "rejected" ∧
      join_society sid req u fid db =
        .ok ({ m with
               approval_status := "pending"
               rejected_at := none
               rejected_by := none },
          { db with user_societies := db.user_societies.map (fun x =>
              if x.id == m.id then
                { m with
                  approval_status := "pending"
                  rejected_at := none
                  rejected_by := none }
              else x) })) ∨
    (∃ w, w.id = fid ∧ w.approval_status = "pending" ∧
      w.user_id = u.id ∧ w.society_id = sid ∧
      (db.findMembershipPair u.id sid = none ∨
        ∃ m2, db.findMembershipPair u.id sid = some m2 ∧
          ¬(m2.approval_status = "pending" ∨
            m2.approval_status = "approved" ∨
            m2.approval_status = "rejected")) ∧
      join_society sid req u fid db =
        .ok (w, { db with user_societies := db.user_societies ++ [w] })) := by
  cases hfs : db.findSociety sid with
  | none =>
    exact Or.inl ⟨.notFound "Society not found", by simp [join_society, hfs]⟩
  | some s =>
    by_cases hcond : (s.approval_status != "approved" &&
        u.global_role != "developer") = true
    · refine Or.inl ⟨.forbidden joinPendingSocietyMsg, ?_⟩
      simp only [join_society, hfs]
      rw [hcond]
      rfl
    · simp only [Bool.not_eq_true] at hcond
      have hins : ((db.findMembershipPair u.id sid = none ∨
            ∃ m2, db.findMembershipPair u.id sid = some m2 ∧
              ¬(m2.approval_status = "pending" ∨
                m2.approval_status = "approved" ∨
                m2.approval_status = "rejected")) ∧
          join_society sid req u fid db =
            join_society_insert sid req u fid db) ∨
          (∃ m, m ∈ db.user_societies ∧ m.approval_status = "rejected" ∧
            join_society sid req u fid db =
              .ok ({ m with
                     approval_status := "pending"
                     rejected_at := none
                     rejected_by := none },
                { db with user_societies := db.user_societies.map (fun x =>
                    if x.id == m.id then
                      { m with
                        approval_status := "pending"
                        rejected_at := none
                        rejected_by := none }
                    else x) })) ∨
          (∃ e, join_society sid req u fid db = .error e) := by
        cases hfm : db.findMembershipPair u.id sid with
        | none =>
          refine Or.inl ⟨Or.inl rfl, ?_⟩
          simp [join_society, hfs, hcond, hfm]
        | some m =>
          by_cases h1 : m.approval_status = "approved"
          · refine Or.inr (Or.inr ⟨.badRequest alreadyMemberMsg, ?_⟩)
            simp [join_society, hfs, hcond, hfm, h1]
          · by_cases h2 : m.approval_status = "pending"
            · refine Or.inr (Or.inr ⟨.badRequest pendingRequestMsg, ?_⟩)
              simp [join_society, hfs, hcond, hfm, h1, h2]
            · by_cases h3 : m.approval_status = "rejected"
              · refine Or.inr (Or.inl ⟨m, List.mem_of_find?_eq_some hfm,
                  h3, ?_⟩)
                simp [join_society, hfs, hcond, hfm, h1, h2, h3]
              · refine Or.inl ⟨Or.inr ⟨m, rfl, by tauto⟩, ?_⟩
                simp [join_society, hfs, hcond, hfm, h1, h2, h3]
      rcases hins with ⟨hprov, hins⟩ | hmid | herr
      · rw [hins]
        rcases join_society_insert_shape sid req u fid db with
          ⟨e, he⟩ | ⟨w, hw1, hw2, hw3, hw4, hw5⟩
        · exact Or.inl ⟨e, he⟩
        · exact Or.inr (Or.inr ⟨w, hw1, hw2, hw3, hw4, hprov, hw5⟩)
      · exact Or.inr (Or.inl hmid)
      · exact Or.inl herr

theorem approve_member_shape (sid : Nat) (approval : ApprovalRequest)
    (u : User) (now : Nat) (db : DB) :
    (∃ e, approve_member sid approval u now db = .error e) ∨
    (∃ m upd, db.findMembershipById approval.user_society_id = some m ∧
      m.approval_status = "pending" ∧
      (upd.approval_status = "approved" ∨
        upd.approval_status = "rejected") ∧ upd.id = m.id ∧
      upd.user_id = m.user_id ∧ upd.society_id = m.society_id ∧
      approve_member sid approval u now db =
        .ok (upd, { db with user_societies := db.user_societies.map (fun x =>
          if x.id == m.id then upd else x) })) := by
  cases hfm : db.findMembershipById approval.user_society_id with
  | none =>
    exact Or.inl ⟨.notFound "Membership request not found",
      by simp [approve_member, hfm]⟩
  | some m =>
    by_cases hcan : can_approve u m.role (get_user_society_role u sid db) =
        true
    · by_cases hp : m.approval_status = "pending"
      · cases happ : approval.approved with
        | true =>
          refine Or.inr ⟨m, { m with
                              approval_status := "approved"
                              approved_by := some u.id
                              approved_at := some now },
            rfl, hp, Or.inl rfl, rfl, rfl, rfl, ?_⟩
          simp [approve_member, hfm, hcan, hp, happ]
        | false =>
          refine Or.inr ⟨m, { m with
                              approval_status := "rejected"
                              rejected_by := some u.id
                              rejected_at := some now
                              rejection_reason :=
                                if approval.rejection_reason.getD "" != ""
                                then approval.rejection_reason
                                else m.rejection_reason },
            rfl, hp, Or.inr rfl, rfl, rfl, rfl, ?_⟩
          simp [approve_member, hfm, hcan, hp, happ]
      · refine Or.inl ⟨.badRequest ("Membership is already " ++
          m.approval_status), ?_⟩
        simp [approve_member, hfm, hcan, hp]
    · simp only [Bool.not_eq_true] at hcan
      refine Or.inl ⟨.forbidden approveForbiddenMsg, ?_⟩
      simp [approve_member, hfm, hcan]

/-- One step of the membership state machine: any `join_society` /
`approve_member` operation on a well-formed state moves a row's
`approval_status` only along pending→approved, pending→rejected or
rejected→pending, never touches an "approved" row, and refuses to re-submit
a "pending" row. -/
theorem membership_transition_step (db : DB) (op : Op)
    (hwf : db.wf) (hfresh : opFresh db op) :
    (∀ r ∈ db.user_societies, ∀ r2 ∈ (applyOp db op).user_societies,
      r2.id = r.id →
        ((r2.approval_status = r.approval_status ∨
          (r.approval_status = "pending" ∧
            r2.approval_status = "approved") ∨
          (r.approval_status = "pending" ∧
            r2.approval_status = "rejected") ∨
          (r.approval_status = "rejected" ∧
            r2.approval_status = "pending")) ∧
         (r.approval_status = "approved" → r2 = r))) ∧
    (∀ sid req u fid, op = Op.join sid req u fid →
      ∀ m ∈ db.user_societies, m.user_id = u.id → m.society_id = sid →
        m.approval_status = "pending" →
          ∃ e, join_society sid req u fid db = .error e) := by
  obtain ⟨hnds, hndm, hndp, hndi⟩ := hwf
  constructor
  · intro r hr r2 hr2 hrid
    cases op with
    | join sid req u fid =>
      have hfr : ∀ x ∈ db.user_societies, x.id ≠ fid := hfresh
      rcases join_society_shape sid req u fid db with
        ⟨e, he⟩ | ⟨m, hmmem, hmrej, hok⟩ | ⟨w, hwid, hwp, hwu, hws, hprov, hok⟩
      · have happ : applyOp db (.join sid req u fid) = db := by
          simp [applyOp, he]
        rw [happ] at hr2
        have heq : r2 = r := eq_of_mem_nodup_ids hndm hr hr2 hrid
        exact ⟨Or.inl (by rw [heq]), fun _ => heq⟩
      · have happ : (applyOp db (.join sid req u fid)).user_societies =
            db.user_societies.map (fun x =>
              if x.id == m.id then
                { m with
                  approval_status := "pending"
                  rejected_at := none
                  rejected_by := none }
              else x) := by
          simp [applyOp, hok]
        rw [happ] at hr2
        rcases mem_replace_cases m
            { m with
              approval_status := "pending"
              rejected_at := none
              rejected_by := none }
            hndm hmmem rfl hr hr2 hrid with
          heq | ⟨hrm, hr2m⟩
        · exact ⟨Or.inl (by rw [heq]), fun _ => heq⟩
        · refine ⟨Or.inr (Or.inr (Or.inr
            ⟨by rw [hrm]; exact hmrej, by rw [hr2m]⟩)), ?_⟩
          intro hap
          exact absurd hap (by rw [hrm, hmrej]; decide)
      · have happ : (applyOp db (.join sid req u fid)).user_societies =
            db.user_societies ++ [w] := by
          simp [applyOp, hok]
        rw [happ] at hr2
        rcases List.mem_append.mp hr2 with h | h
        · have heq : r2 = r := eq_of_mem_nodup_ids hndm hr h hrid
          exact ⟨Or.inl (by rw [heq]), fun _ => heq⟩
        · have hr2w : r2 = w := by simpa using h
          exact absurd (by rw [← hrid, hr2w, hwid] : r.id = fid) (hfr r hr)
    | approveMember sid approval u now =>
      rcases approve_member_shape sid approval u now db with
        ⟨e, he⟩ | ⟨m, upd, hfm, hmp, hupds, hupId, hupU, hupS, hok⟩
      · have happ : applyOp db (.approveMember sid approval u now) = db := by
          simp [applyOp, he]
        rw [happ] at hr2
        have heq : r2 = r := eq_of_mem_nodup_ids hndm hr hr2 hrid
        exact ⟨Or.inl (by rw [heq]), fun _ => heq⟩
      · have happ :
            (applyOp db (.approveMember sid approval u now)).user_societies =
            db.user_societies.map (fun x =>
              if x.id == m.id then upd else x) := by
          simp [applyOp, hok]
        rw [happ] at hr2
        have hmmem := List.mem_of_find?_eq_some hfm
        rcases mem_replace_cases m upd hndm hmmem hupId hr hr2 hrid with
          heq | ⟨hrm, hr2u⟩
        · exact ⟨Or.inl (by rw [heq]), fun _ => heq⟩
        · refine ⟨?_, ?_⟩
          · rcases hupds with h | h
            · exact Or.inr (Or.inl
                ⟨by rw [hrm]; exact hmp, by rw [hr2u]; exact h⟩)
            · exact Or.inr (Or.inr (Or.inl
                ⟨by rw [hrm]; exact hmp, by rw [hr2u]; exact h⟩))
          · intro hap
            exact absurd hap (by rw [hrm, hmp]; decide)
  · rintro sid req u fid rfl m hm hmu hms hmp
    have hfm : db.findMembershipPair u.id sid = some m :=
      (findMembershipPair_some_iff hndp).mpr ⟨hm, hmu, hms⟩
    cases hfs : db.findSociety sid with
    | none =>
      exact ⟨.notFound "Society not found", by simp [join_society, hfs]⟩
    | some s =>
      by_cases hcond : (s.approval_status != "approved" &&
          u.global_role != "developer") = true
      · refine ⟨.forbidden joinPendingSocietyMsg, ?_⟩
        simp only [join_society, hfs]
        rw [hcond]
        rfl
      · simp only [Bool.not_eq_true] at hcond
        refine ⟨.badRequest pendingRequestMsg, ?_⟩
        simp [join_society, hfs, hcond, hfm, hmp]

theorem map_replace_id_map (us : List UserSociety) (m m2 : UserSociety)
    (hid : m2.id = m.id) :
    (us.map (fun x => if x.id == m.id then m2 else x)).map (·.id) =
      us.map (·.id) := by
  rw [List.map_map]
  refine List.map_congr_left ?_
  intro x hx
  by_cases h : x.id = m.id <;> simp [h, hid]

theorem map_replace_pair_map (us : List UserSociety) (m m2 : UserSociety)
    (hnd : (us.map (·.id)).Nodup) (hm : m ∈ us)
    (hid : m2.id = m.id) (hu : m2.user_id = m.user_id)
    (hs : m2.society_id = m.society_id) :
    (us.map (fun x => if x.id == m.id then m2 else x)).map
        (fun x => (x.user_id, x.society_id)) =
      us.map (fun x => (x.user_id, x.society_id)) := by
  rw [List.map_map]
  refine List.map_congr_left ?_
  intro x hx
  by_cases h : x.id = m.id
  · have hxm : x = m := eq_of_mem_map_nodup (·.id) hnd hx hm h
    subst hxm
    simp [hu, hs]
  · simp [h]

theorem statusValid_replace {db : DB} (m m2 : UserSociety)
    (hsv : statusValid db)
    (hv : m2.approval_status = "pending" ∨ m2.approval_status = "approved" ∨
      m2.approval_status = "rejected") :
    ∀ x ∈ db.user_societies.map (fun x =>
      if x.id == m.id then m2 else x),
        x.approval_status = "pending" ∨ x.approval_status = "approved" ∨
        x.approval_status = "rejected" := by
  intro x hx
  obtain ⟨y, hy, hfy⟩ := List.mem_map.mp hx
  by_cases h : y.id = m.id
  · have hfy2 : x = m2 := by rw [← hfy]; simp [h]
    rw [hfy2]; exact hv
  · have hfy2 : x = y := by rw [← hfy]; simp [h]
    rw [hfy2]; exact hsv y hy

theorem wf_sv_replace (db : DB) (m m2 : UserSociety)
    (hwf : db.wf) (hsv : statusValid db) (hm : m ∈ db.user_societies)
    (hid : m2.id = m.id) (hu : m2.user_id = m.user_id)
    (hs : m2.society_id = m.society_id)
    (hv : m2.approval_status = "pending" ∨ m2.approval_status = "approved" ∨
      m2.approval_status = "rejected") :
    ({ db with user_societies := db.user_societies.map (fun x =>
        if x.id == m.id then m2 else x) } : DB).wf ∧
    statusValid { db with user_societies := db.user_societies.map (fun x =>
        if x.id == m.id then m2 else x) } := by
  obtain ⟨hnds, hndm, hndp, hndi⟩ := hwf
  refine ⟨⟨hnds, ?_, ?_, hndi⟩, ?_⟩
  · exact (map_replace_id_map db.user_societies m m2 hid).symm ▸ hndm
  · exact (map_replace_pair_map db.user_societies m m2 hndm hm hid hu
      hs).symm ▸ hndp
  · exact statusValid_replace m m2 hsv hv

theorem wf_sv_append (db : DB) (w : UserSociety)
    (hwf : db.wf) (hsv : statusValid db)
    (hfr : ∀ x ∈ db.user_societies, x.id ≠ w.id)
    (hpair : ∀ x ∈ db.user_societies,
      ¬(x.user_id = w.user_id ∧ x.society_id = w.society_id))
    (hv : w.approval_status = "pending" ∨ w.approval_status = "approved" ∨
      w.approval_status = "rejected") :
    ({ db with user_societies := db.user_societies ++ [w] } : DB).wf ∧
    statusValid { db with user_societies := db.user_societies ++ [w] } := by
  obtain ⟨hnds, hndm, hndp, hndi⟩ := hwf
  refine ⟨⟨hnds, ?_, ?_, hndi⟩, ?_⟩
  · show ((db.user_societies ++ [w]).map (fun x => x.id)).Nodup
    rw [List.map_append, List.nodup_append]
    refine ⟨hndm, by simp, ?_⟩
    intro a ha hb
    simp only [List.map_cons, List.map_nil, List.mem_cons,
      List.not_mem_nil, or_false] at hb
    obtain ⟨x, hx, hxa⟩ := List.mem_map.mp ha
    exact hfr x hx (by rw [hxa, hb])
  · show ((db.user_societies ++ [w]).map
      (fun x => (x.user_id, x.society_id))).Nodup
    rw [List.map_append, List.nodup_append]
    refine ⟨hndp, by simp, ?_⟩
    intro a ha hb
    simp only [List.map_cons, List.map_nil, List.mem_cons,
      List.not_mem_nil, or_false] at hb
    obtain ⟨x, hx, hxa⟩ := List.mem_map.mp ha
    have hpa : (x.user_id, x.society_id) = (w.user_id, w.society_id) := by
      rw [hxa, hb]
    exact hpair x hx ⟨congrArg Prod.fst hpa, congrArg Prod.snd hpa⟩
  · intro x hx
    rcases List.mem_append.mp hx with h | h
    · exact hsv x h
    · have hxw : x = w := by simpa using h
      rw [hxw]; exact hv

/-- `join_society` and `approve_member` preserve the uniqueness constraints
and status validity of the state (given a fresh id for an inserted row). -/
theorem applyOp_preserves (db : DB) (op : Op) (hwf : db.wf)
    (hsv : statusValid db) (hfresh : opFresh db op) :
    (applyOp db op).wf ∧ statusValid (applyOp db op) := by
  cases op with
  | join sid req u fid =>
    have hfr : ∀ x ∈ db.user_societies, x.id ≠ fid := hfresh
    rcases join_society_shape sid req u fid db with
      ⟨e, he⟩ | ⟨m, hmmem, hmrej, hok⟩ |
      ⟨w, hwid, hwp, hwu, hws, hprov, hok⟩
    · have happ : applyOp db (.join sid req u fid) = db := by
        simp [applyOp, he]
      rw [happ]
      exact ⟨hwf, hsv⟩
    · have happ : applyOp db (.join sid req u fid) =
          { db with user_societies := db.user_societies.map (fun x =>
              if x.id == m.id then
                { m with
                  approval_status := "pending"
                  rejected_at := none
                  rejected_by := none }
              else x) } := by
        simp [applyOp, hok]
      rw [happ]
      exact wf_sv_replace db m _ hwf hsv hmmem rfl rfl rfl (Or.inl rfl)
    · have happ : applyOp db (.join sid req u fid) =
          { db with user_societies := db.user_societies ++ [w] } := by
        simp [applyOp, hok]
      rw [happ]
      refine wf_sv_append db w hwf hsv
        (fun x hx => by rw [hwid]; exact hfr x hx) ?_ ?_
      · intro x hx hcon
        rcases hprov with hnone | ⟨m2, hm2, hm2bad⟩
        · exact findMembershipPair_none_iff.mp hnone x hx
            ⟨by rw [hcon.1, hwu], by rw [hcon.2, hws]⟩
        · exact hm2bad (hsv m2 (List.mem_of_find?_eq_some hm2))
      · exact Or.inl hwp
  | approveMember sid approval u now =>
    rcases approve_member_shape sid approval u now db with
      ⟨e, he⟩ | ⟨m, upd, hfm, hmp, hupds, hupId, hupU, hupS, hok⟩
    · have happ : applyOp db (.approveMember sid approval u now) = db := by
        simp [applyOp, he]
      rw [happ]
      exact ⟨hwf, hsv⟩
    · have happ : applyOp db (.approveMember sid approval u now) =
          { db with user_societies := db.user_societies.map (fun x =>
              if x.id == m.id then upd else x) } := by
        simp [applyOp, hok]
      rw [happ]
      refine wf_sv_replace db m upd hwf hsv
        (List.mem_of_find?_eq_some hfm) hupId hupU hupS ?_
      rcases hupds with h | h
      · exact Or.inr (Or.inl h)
      · exact Or.inr (Or.inr h)

theorem membership_transition_along (pre : List Op) (op : Op)
    (suf : List Op) :
    ∀ db : DB, db.wf → statusValid db →
      opsFresh db (pre ++ op :: suf) →
      ((∀ r ∈ (applyOps db pre).user_societies,
        ∀ r2 ∈ (applyOp (applyOps db pre) op).user_societies,
         r2.id = r.id →
           ((r2.approval_status = r.approval_status ∨
             (r.approval_status = "pending" ∧
               r2.approval_status = "approved") ∨
             (r.approval_status = "pending" ∧
               r2.approval_status = "rejected") ∨
             (r.approval_status = "rejected" ∧
               r2.approval_status = "pending")) ∧
            (r.approval_status = "approved" → r2 = r))) ∧
       (∀ sid req u fid, op = Op.join sid req u fid →
         ∀ m ∈ (applyOps db pre).user_societies, m.user_id = u.id →
           m.society_id = sid → m.approval_status = "pending" →
             ∃ e, join_society sid req u fid (applyOps db pre) =
               .error e)) := by
  induction pre with
  | nil =>
    intro db hwf hsv hfresh
    rw [List.nil_append] at hfresh
    exact membership_transition_step db op hwf hfresh.1
  | cons p pre ih =>
    intro db hwf hsv hfresh
    rw [List.cons_append] at hfresh
    obtain ⟨h1, hrest⟩ := hfresh
    have hp := applyOp_preserves db p hwf hsv h1
    exact ih (applyOp db p) hp.1 hp.2 hrest

/-- C6: over every sequence of `join_society` / `approve_member` operations
from a well-formed state (all generated row ids fresh), at every step of the
run a membership row's `approval_status` changes only along
pending→approved, pending→rejected or rejected→pending; no step changes a
row whose status is "approved" (the row is returned untouched), and no
`join_society` step re-submits a row that is already "pending" (the call
fails instead). -/
theorem membership_status_transition_invariant (db : DB) (ops : List Op)
    (hwf : db.wf) (hsv : statusValid db) (hfresh : opsFresh db ops) :
    ∀ pre op suf, ops = pre ++ op :: suf →
      ((∀ r ∈ (applyOps db pre).user_societies,
        ∀ r2 ∈ (applyOp (applyOps db pre) op).user_societies,
         r2.id = r.id →
           ((r2.approval_status = r.approval_status ∨
             (r.approval_status = "pending" ∧
               r2.approval_status = "approved") ∨
             (r.approval_status = "pending" ∧
               r2.approval_status = "rejected") ∨
             (r.approval_status = "rejected" ∧
               r2.approval_status = "pending")) ∧
            (r.approval_status = "approved" → r2 = r))) ∧
       (∀ sid req u fid, op = Op.join sid req u fid →
         ∀ m ∈ (applyOps db pre).user_societies, m.user_id = u.id →
           m.society_id = sid → m.approval_status = "pending" →
             ∃ e, join_society sid req u fid (applyOps db pre) =
               .error e)) := by
  intro pre op suf heq
  subst heq
  exact membership_transition_along pre op suf db hwf hsv hfresh

/-- Witness for C6: the invariant applied to a one-step run approving
Alice's pending membership (row 102) in the example state — the step turns
the pending row into the approved one. -/
theorem membership_status_transition_invariant_witness :
    dbEx.wf ∧ statusValid dbEx ∧
    opsFresh dbEx [Op.approveMember 11 ⟨102, true, none⟩ uDev 5] ∧
    memAliceP ∈ (applyOps dbEx []).user_societies ∧
    ({ memAliceP with
       approval_status := "approved"
       approved_by := some 1
       approved_at := some 5 } : UserSociety) ∈
      (applyOp (applyOps dbEx [])
        (Op.approveMember 11 ⟨102, true, none⟩ uDev 5)).user_societies ∧
    (({ memAliceP with
        approval_status := "approved"
        approved_by := some 1
        approved_at := some 5 } : UserSociety).approval_status =
        memAliceP.approval_status ∨
     (memAliceP.approval_status = "pending" ∧
       ({ memAliceP with
          approval_status := "approved"
          approved_by := some 1
          approved_at := some 5 } : UserSociety).approval_status =
         "approved") ∨
     (memAliceP.approval_status = "pending" ∧
       ({ memAliceP with
          approval_status := "approved"
          approved_by := some 1
          approved_at := some 5 } : UserSociety).approval_status =
         "rejected") ∨
     (memAliceP.approval_status = "rejected" ∧
       ({ memAliceP with
          approval_status := "approved"
          approved_by := some 1
          approved_at := some 5 } : UserSociety).approval_status =
         "pending")) :=
  ⟨by decide, by decide, by decide, by decide, by decide,
   (((membership_status_transition_invariant dbEx
       [Op.approveMember 11 ⟨102, true, none⟩ uDev 5] (by decide)
       (by decide) (by decide)) []
       (Op.approveMember 11 ⟨102, true, none⟩ uDev 5) [] rfl).1
     memAliceP (by decide)
     { memAliceP with
       approval_status := "approved"
       approved_by := some 1
       approved_at := some 5 } (by decide) (by decide)).1⟩

/-! ## Issue update/delete permissions -/

theorem update_issue_pass {db : DB} {iid : Nat} {upd : IssueUpdate}
    {u : User} {now : Nat} {issue : Issue}
    (hfi : db.findIssue iid = some issue)
    (hallow : issue.reported_by = u.id ∨ issue.assigned_to = some u.id ∨
      get_user_society_role u issue.society_id db = some "admin" ∨
      get_user_society_role u issue.society_id db = some "manager") :
    ∃ out, update_issue iid upd u now db = .ok out := by
  rcases hallow with h | h | h | h <;> simp [update_issue, hfi, h]

theorem update_issue_denied {db : DB} {iid : Nat} {upd : IssueUpdate}
    {u : User} {now : Nat} {issue : Issue}
    (hfi : db.findIssue iid = some issue)
    (h1 : issue.reported_by ≠ u.id) (h2 : issue.assigned_to ≠ some u.id)
    (h3 : get_user_society_role u issue.society_id db ≠ some "admin")
    (h4 : get_user_society_role u issue.society_id db ≠ some "manager") :
    update_issue iid upd u now db =
      .error (.forbidden "You do not have permission to update this issue") := by
  simp [update_issue, hfi, h1, h2, h3, h4]

theorem delete_issue_pass {db : DB} {iid : Nat} {u : User} {issue : Issue}
    (hfi : db.findIssue iid = some issue)
    (hallow : issue.reported_by = u.id ∨
      get_user_society_role u issue.society_id db = some "admin") :
    ∃ out, delete_issue iid u db = .ok out := by
  rcases hallow with h | h <;> simp [delete_issue, hfi, h]

theorem delete_issue_denied {db : DB} {iid : Nat} {u : User} {issue : Issue}
    (hfi : db.findIssue iid = some issue)
    (h1 : issue.reported_by ≠ u.id)
    (h2 : get_user_society_role u issue.society_id db ≠ some "admin") :
    delete_issue iid u db =
      .error (.forbidden "You do not have permission to delete this issue") := by
  simp [delete_issue, hfi, h1, h2]

/-- C9: for an existing issue and a caller with society access,
`update_issue` succeeds exactly when the caller is the reporter, the
assignee, or a resolved admin/manager of the issue's society, and fails 403
otherwise; `delete_issue` succeeds exactly when the caller is the reporter
or a resolved admin, and fails 403 otherwise. -/
theorem issue_update_delete_permission_spec (iid : Nat) (upd : IssueUpdate)
    (u : User) (now : Nat) (db : DB) (hwf : db.wf) :
    ∀ issue ∈ db.issues, issue.id = iid →
      check_society_access u issue.society_id db none = .ok true →
      (((∃ out, update_issue iid upd u now db = .ok out) ↔
        (issue.reported_by = u.id ∨ issue.assigned_to = some u.id ∨
         get_user_society_role u issue.society_id db = some "admin" ∨
         get_user_society_role u issue.society_id db = some "manager")) ∧
       (¬(issue.reported_by = u.id ∨ issue.assigned_to = some u.id ∨
          get_user_society_role u issue.society_id db = some "admin" ∨
          get_user_society_role u issue.society_id db = some "manager") →
         update_issue iid upd u now db =
           .error
             (.forbidden "You do not have permission to update this issue")) ∧
       ((∃ out, delete_issue iid u db = .ok out) ↔
        (issue.reported_by = u.id ∨
         get_user_society_role u issue.society_id db = some "admin")) ∧
       (¬(issue.reported_by = u.id ∨
          get_user_society_role u issue.society_id db = some "admin") →
         delete_issue iid u db =
           .error
             (.forbidden "You do not have permission to delete this issue"))) := by
  obtain ⟨hnds, hndm, hndp, hndi⟩ := hwf
  intro issue hmem hiid hacc
  have hfi : db.findIssue iid = some issue :=
    (findIssue_some_iff hndi).mpr ⟨hmem, hiid⟩
  refine ⟨⟨?_, ?_⟩, ?_, ⟨?_, ?_⟩, ?_⟩
  · rintro ⟨out, hout⟩
    by_contra hneg
    push_neg at hneg
    rw [update_issue_denied hfi hneg.1 hneg.2.1 hneg.2.2.1 hneg.2.2.2]
      at hout
    cases hout
  · exact fun h => update_issue_pass hfi h
  · intro hneg
    push_neg at hneg
    exact update_issue_denied hfi hneg.1 hneg.2.1 hneg.2.2.1 hneg.2.2.2
  · rintro ⟨out, hout⟩
    by_contra hneg
    push_neg at hneg
    rw [delete_issue_denied hfi hneg.1 hneg.2] at hout
    cases hout
  · exact fun h => delete_issue_pass hfi h
  · intro hneg
    push_neg at hneg
    exact delete_issue_denied hfi hneg.1 hneg.2

/-! ## Visibility of pending societies -/

theorem mem_insertByCreatedDesc {s : Society} {l : List Society}
    {x : Society} (h : x ∈ insertByCreatedDesc s l) : x = s ∨ x ∈ l := by
  induction l with
  | nil => unfold insertByCreatedDesc at h; simpa using h
  | cons t ts ih =>
    unfold insertByCreatedDesc at h
    by_cases hc : t.created_at ≤ s.created_at
    · rw [if_pos hc] at h
      simpa using h
    · rw [if_neg hc] at h
      rcases List.mem_cons.mp h with rfl | h2
      · exact Or.inr (List.mem_cons_self _ _)
      · rcases ih h2 with h3 | h3
        · exact Or.inl h3
        · exact Or.inr (List.mem_cons_of_mem _ h3)

theorem mem_sortByCreatedDesc {l : List Society} {x : Society}
    (h : x ∈ sortByCreatedDesc l) : x ∈ l := by
  induction l with
  | nil => unfold sortByCreatedDesc at h; simp at h
  | cons t ts ih =>
    unfold sortByCreatedDesc at h
    rcases mem_insertByCreatedDesc h with rfl | h2
    · exact List.mem_cons_self _ _
    · exact List.mem_cons_of_mem _ (ih h2)

theorem list_societies_all_approved {skip limit : Nat}
    {search : Option String} {u : User} {db : DB}
    (hdev : u.global_role ≠ "developer") :
    ∀ s ∈ list_societies skip limit search u db,
      s.approval_status = "approved" := by
  intro s hs
  have hdevb : (u.global_role == "developer") = false := by simp [hdev]
  unfold list_societies at hs
  rw [hdevb] at hs
  simp only [Bool.false_eq_true, if_false] at hs
  have hs2 := List.drop_subset _ _ (List.take_subset _ _ hs)
  have hs3 := mem_sortByCreatedDesc hs2
  have hs4 : s ∈ db.societies.filter (fun s =>
      db.user_societies.any (fun m =>
        m.user_id == u.id && m.society_id == s.id &&
        m.approval_status == "approved") &&
      s.approval_status == "approved") := by
    cases search with
    | none => exact hs3
    | some q => exact List.mem_of_mem_filter hs3
  have := List.of_mem_filter hs4
  simp only [Bool.and_eq_true, beq_iff_eq] at this
  exact this.2

/-- Amended C4: for a non-developer and a pending society, the society never
appears in `list_societies` (for any pagination and search), and
`join_society` fails with the 403; but `get_society_members` performs no
access or approval check at all and succeeds for every authenticated caller,
pending society or not — the claim's "get_society_members fails" part does
not hold. -/
theorem pending_society_visibility_amended (sid skip limit : Nat)
    (search filt : Option String) (req : Option UserSocietyCreate)
    (fid : Nat) (u : User) (db : DB) (hwf : db.wf)
    (hdev : u.global_role ≠ "developer") :
    ∀ s ∈ db.societies, s.id = sid → s.approval_status = "pending" →
      (s ∉ list_societies skip limit search u db ∧
       join_society sid req u fid db =
         .error (.forbidden joinPendingSocietyMsg) ∧
       ∃ ms, get_society_members sid filt u db = .ok ms) := by
  obtain ⟨hnds, hndm, hndp, hndi⟩ := hwf
  intro s hmem hsid hp
  refine ⟨?_, ?_, ⟨_, rfl⟩⟩
  · intro hin
    exact absurd (list_societies_all_approved hdev s hin)
      (by rw [hp]; decide)
  · have hfs : db.findSociety sid = some s :=
      (findSociety_some_iff hnds).mpr ⟨hmem, hsid⟩
    have hcond : (s.approval_status != "approved" &&
        u.global_role != "developer") = true := by
      simp [hp, hdev]
    simp only [join_society, hfs]
    rw [hcond]
    rfl

/-- Witness for the amended C4 at the example state: Alice's request to
join the pending society is rejected with the 403. -/
theorem pending_society_visibility_amended_witness :
    dbEx.wf ∧ uAlice.global_role = "member" ∧ socP ∈ dbEx.societies ∧
    socP.approval_status = "pending" ∧
    join_society 11 none uAlice 999 dbEx =
      .error (.forbidden joinPendingSocietyMsg) := by
  refine ⟨by decide, rfl, by decide, rfl, ?_⟩
  exact ((pending_society_visibility_amended 11 0 50 none none none 999
    uAlice dbEx (by decide) (by decide)) socP (by decide) rfl rfl).2.1

/-- Counterexample to C4 as stated: Alice is no developer, society 11 is
pending, yet `get_society_members` on it succeeds for her (returning the
membership rows) instead of failing. -/
theorem pending_society_members_visible_counterexample :
    uAlice.global_role = "member" ∧ socP ∈ dbEx.societies ∧
    socP.approval_status = "pending" ∧
    get_society_members 11 none uAlice dbEx = .ok [memAliceP] := by
  refine ⟨rfl, by decide, rfl, by decide⟩

/-! ## The generic permission gate and the asset/AMC gates -/

theorem check_access_cases (u : User) (sid : Nat) (db : DB) :
    check_society_access u sid db none = .ok true ∨
    ∃ e, check_society_access u sid db none = .error e := by
  by_cases hdev : u.global_role = "developer"
  · exact Or.inl (check_access_dev hdev none)
  · cases hfs : db.findSociety sid with
    | none => exact Or.inr ⟨_, check_access_not_found hdev hfs⟩
    | some s =>
      by_cases hap : s.approval_status = "approved"
      · cases hfm : db.findMembershipPair u.id sid with
        | none => exact Or.inr ⟨_, check_access_no_mapping hdev hfs hap hfm⟩
        | some m =>
          by_cases hmap : m.approval_status = "approved"
          · exact Or.inl (check_access_ok hdev hfs hap hfm hmap)
          · exact Or.inr ⟨_,
              check_access_mapping_not_approved hdev hfs hap hfm hmap⟩
      · exact Or.inr ⟨_, check_access_society_not_approved hdev hfs hap⟩

theorem get_user_society_role_dev {u : User} {sid : Nat} {db : DB}
    (hdev : u.global_role = "developer") :
    get_user_society_role u sid db = some "admin" := by
  simp [get_user_society_role, hdev]

theorem get_user_society_role_nondev {u : User} {sid : Nat} {db : DB}
    {m : UserSociety} (hdev : u.global_role ≠ "developer")
    (hfa : db.findApprovedMembership u.id sid = some m) :
    get_user_society_role u sid db = some m.role := by
  simp [get_user_society_role, hdev, hfa]

theorem require_society_permission_ok_iff (u : User) (sid : Nat) (db : DB)
    (roles : List String) (action : String) (hwf : db.wf) :
    (∃ rr, require_society_permission u sid db roles action = .ok rr) ↔
      ((u.global_role = "developer" ∧ roles.contains "admin" = true) ∨
       (u.global_role ≠ "developer" ∧
        (∃ s ∈ db.societies, s.id = sid ∧ s.approval_status = "approved") ∧
        (∃ m ∈ db.user_societies, m.user_id = u.id ∧ m.society_id = sid ∧
          m.approval_status = "approved" ∧
          roles.contains m.role = true))) := by
  obtain ⟨hnds, hndm, hndp, hndi⟩ := hwf
  by_cases hdev : u.global_role = "developer"
  · have hrole := @get_user_society_role_dev u sid db hdev
    by_cases hcm : "admin" ∈ roles
    · have hc : roles.contains "admin" = true := List.elem_iff.mpr hcm
      constructor
      · intro _; exact Or.inl ⟨hdev, hc⟩
      · intro _
        exact ⟨"admin", by
          simp [require_society_permission, check_access_dev hdev none,
            hrole, hcm]⟩
    · have hc : roles.contains "admin" = false :=
        Bool.eq_false_iff.mpr (fun h => hcm (List.elem_iff.mp h))
      constructor
      · rintro ⟨rr, hrr⟩
        simp [require_society_permission, check_access_dev hdev none,
          hrole, hcm] at hrr
      · rintro (⟨_, hc2⟩ | ⟨hnd, _⟩)
        · rw [hc] at hc2; cases hc2
        · exact absurd hdev hnd
  · rcases check_access_cases u sid db with hchk | ⟨e, hchk⟩
    · obtain hR := (check_access_ok_iff ⟨hnds, hndm, hndp, hndi⟩).mp hchk
      rcases hR with hd | ⟨hsoc, m, hmmem, hmu, hms, hmap⟩
      · exact absurd hd hdev
      · have hfa : db.findApprovedMembership u.id sid = some m :=
          (findApprovedMembership_some_iff hndp).mpr ⟨hmmem, hmu, hms, hmap⟩
        have hrole := get_user_society_role_nondev hdev hfa
        by_cases hcm : m.role ∈ roles
        · have hc : roles.contains m.role = true := List.elem_iff.mpr hcm
          constructor
          · intro _
            exact Or.inr ⟨hdev, hsoc, m, hmmem, hmu, hms, hmap, hc⟩
          · intro _
            exact ⟨m.role, by
              simp [require_society_permission, hchk, hrole, hcm]⟩
        · have hc : roles.contains m.role = false :=
            Bool.eq_false_iff.mpr (fun h => hcm (List.elem_iff.mp h))
          constructor
          · rintro ⟨rr, hrr⟩
            simp [require_society_permission, hchk, hrole, hcm] at hrr
          · rintro (⟨hd, _⟩ | ⟨_, _, m2, hm2mem, hm2u, hm2s, hm2ap, hc2⟩)
            · exact absurd hd hdev
            · have hm2 : m2 = m := eq_of_mem_map_nodup
                (fun x => (x.user_id, x.society_id)) hndp hm2mem hmmem
                (by simp only [hm2u, hm2s, hmu, hms])
              rw [hm2, hc] at hc2
              cases hc2
    · constructor
      · rintro ⟨rr, hrr⟩
        simp [require_society_permission, hchk] at hrr
      · rintro (⟨hd, _⟩ | ⟨_, hsoc, m, hmmem, hmu, hms, hmap, _⟩)
        · exact absurd hd hdev
        · have hok : check_society_access u sid db none = .ok true :=
            (check_access_ok_iff ⟨hnds, hndm, hndp, hndi⟩).mpr
              (Or.inr ⟨hsoc, m, hmmem, hmu, hms, hmap⟩)
          rw [hchk] at hok
          cases hok

/-- Amended C5: the asset create/update gates
(`require_society_permission` with `allowed_roles=["admin","manager"]`) pass
exactly for a developer, or for a caller with an approved membership of role
"admin" or "manager" in an approved society.  The AMC create/update gates
are different on both counts: their own admin-only membership query compares
the nonexistent `UserSociety.status` attribute, so a developer passes and
every non-developer call — manager and admin alike — errors out instead of
passing. -/
theorem asset_amc_gate_spec (u : User) (sid : Nat) (db : DB) (hwf : db.wf) :
    ((∃ rr, create_asset_gate u sid db = .ok rr) ↔
      (u.global_role = "developer" ∨
       (u.global_role ≠ "developer" ∧
        (∃ s ∈ db.societies, s.id = sid ∧ s.approval_status = "approved") ∧
        (∃ m ∈ db.user_societies, m.user_id = u.id ∧ m.society_id = sid ∧
          m.approval_status = "approved" ∧
          (m.role = "admin" ∨ m.role = "manager"))))) ∧
    ((∃ rr, update_asset_gate u sid db = .ok rr) ↔
      (u.global_role = "developer" ∨
       (u.global_role ≠ "developer" ∧
        (∃ s ∈ db.societies, s.id = sid ∧ s.approval_status = "approved") ∧
        (∃ m ∈ db.user_societies, m.user_id = u.id ∧ m.society_id = sid ∧
          m.approval_status = "approved" ∧
          (m.role = "admin" ∨ m.role = "manager"))))) ∧
    (create_amc_gate u sid db = .ok () ↔ u.global_role = "developer") ∧
    (update_amc_gate u sid db = .ok () ↔ u.global_role = "developer") := by
  have hcont : ∀ r : String, (["admin", "manager"].contains r = true) ↔
      (r = "admin" ∨ r = "manager") := by
    intro r; simp [List.contains]
  have hmain : ∀ action, (∃ rr, require_society_permission u sid db
      ["admin", "manager"] action = .ok rr) ↔
      (u.global_role = "developer" ∨
       (u.global_role ≠ "developer" ∧
        (∃ s ∈ db.societies, s.id = sid ∧ s.approval_status = "approved") ∧
        (∃ m ∈ db.user_societies, m.user_id = u.id ∧ m.society_id = sid ∧
          m.approval_status = "approved" ∧
          (m.role = "admin" ∨ m.role = "manager")))) := by
    intro action
    rw [require_society_permission_ok_iff u sid db _ action hwf]
    constructor
    · rintro (⟨hd, _⟩ | ⟨hnd, hsoc, m, h1, h2, h3, h4, h5⟩)
      · exact Or.inl hd
      · exact Or.inr ⟨hnd, hsoc, m, h1, h2, h3, h4, (hcont m.role).mp h5⟩
    · rintro (hd | ⟨hnd, hsoc, m, h1, h2, h3, h4, h5⟩)
      · exact Or.inl ⟨hd, by decide⟩
      · exact Or.inr ⟨hnd, hsoc, m, h1, h2, h3, h4, (hcont m.role).mpr h5⟩
  refine ⟨hmain _, hmain _, ?_, ?_⟩ <;>
  · by_cases hdev : u.global_role = "developer" <;>
      simp [create_amc_gate, update_amc_gate, amc_admin_gate, hdev]

/-- Witness for the amended C5: the developer passes the AMC gate. -/
theorem asset_amc_gate_spec_witness :
    dbEx.wf ∧ create_amc_gate uDev 10 dbEx = .ok () :=
  ⟨by decide, (asset_amc_gate_spec uDev 10 dbEx (by decide)).2.2.1.mpr rfl⟩

/-- Counterexample to C5 as stated: Mona's resolved society role is
"manager", the asset gate passes her, yet both AMC gates fail — create and
update AMCs are not gated on `{admin, manager}`. -/
theorem amc_manager_gate_counterexample :
    get_user_society_role uMona 10 dbEx = some "manager" ∧
    create_asset_gate uMona 10 dbEx = .ok "manager" ∧
    create_amc_gate uMona 10 dbEx = .error
      (.attributeError "type object UserSociety has no attribute status") ∧
    update_amc_gate uMona 10 dbEx = .error
      (.attributeError "type object UserSociety has no attribute status") := by
  refine ⟨by decide, by decide, by decide, by decide⟩

/-- Witness for C9: Mona, a manager who neither reported the example issue
nor is its assignee, is denied deletion with the 403. -/
theorem issue_update_delete_permission_spec_witness :
    dbIss.wf ∧ issEx ∈ dbIss.issues ∧
    check_society_access uMona issEx.society_id dbIss none = .ok true ∧
    delete_issue 500 uMona dbIss =
      .error
        (.forbidden "You do not have permission to delete this issue") := by
  refine ⟨by decide, by decide, by decide, ?_⟩
  exact ((issue_update_delete_permission_spec 500 ⟨none, none, none⟩ uMona 0
    dbIss (by decide)) issEx (by decide) rfl (by decide)).2.2.2 (by decide)

end SocietyApp
